import Mathlib

/-!
Shallow embedding of the agent system (analytics agent, brand-manager agent,
tenant resource registry) translated from `src/agents/analytics/index.ts` and
`src/agents/brand-manager/index.ts`.

JavaScript idioms are modelled explicitly:
* `a || d` on strings is `jsOrStr` (the empty string is falsy);
* `a || d` on numbers is `jsOrNat` (0 is falsy);
* `a ?? d` is `Option.getD`;
* object spread `{...old, ...upd}` over string-keyed objects is `jsSpread`
  (keys of `old` keep their position, updated values win, new keys append);
* `[...new Set(l)]` is `jsDedup` (first occurrence kept);
* `arr.slice(-n)` is `lastN`;
* JS numbers are modelled as `ℚ` (no floating point rounding is relied on by
  any claim; external numeric formatting such as `toFixed` and
  `toISOString` is an oracle parameter).

External collaborators (LLM client, `JSON.parse`, clock, random id
generation) are passed as parameters, mirroring the fact that the source
awaits them.
-/

set_option linter.unusedVariables false

/-- JS string truthiness fallback `a || d`: the empty string is falsy. -/
def jsOrStr (a : Option String) (d : String) : String :=
  match a with
  | some s => if s = "" then d else s
  | none => d

/-- JS numeric truthiness fallback `a || d` on a natural: `0` is falsy. -/
def jsOrNat (a : Option Nat) (d : Nat) : Nat :=
  match a with
  | some n => if n = 0 then d else n
  | none => d

/-- Association-list lookup (first match), modelling `Map.get` / object indexing. -/
def assocGet {α : Type} (l : List (String × α)) (k : String) : Option α :=
  match l with
  | [] => none
  | (k2, v) :: rest => if k2 = k then some v else assocGet rest k

/-- Association-list upsert, modelling `Map.set` / `obj[k] = v`: an existing key
keeps its position, a new key is appended (JS insertion order). -/
def updAssoc {α : Type} (l : List (String × α)) (k : String) (v : α) : List (String × α) :=
  match l with
  | [] => [(k, v)]
  | (k2, w) :: rest => if k2 = k then (k2, v) :: rest else (k2, w) :: updAssoc rest k v

/-- JS object spread `{...old, ...upd}` for string-keyed objects. -/
def jsSpread {α : Type} (old upd : List (String × α)) : List (String × α) :=
  upd.foldl (fun acc kv => updAssoc acc kv.1 kv.2) old

/-- Helper for `jsDedup`: `seen` accumulates the keys already emitted. -/
def dedupAux (seen : List String) : List String → List String
  | [] => []
  | x :: xs => if x ∈ seen then dedupAux seen xs else x :: dedupAux (x :: seen) xs

/-- Models `[...new Set(l)]`: removes duplicates keeping the first occurrence of each element. -/
def jsDedup (l : List String) : List String :=
  dedupAux [] l

/-- Models `arr.slice(-n)`: the last `min n (length arr)` elements. -/
def lastN {α : Type} (n : Nat) (l : List α) : List α :=
  l.drop (l.length - n)

/-- Characters kept verbatim by the slug regex `[^a-z0-9]+` (after lower-casing). -/
def isSlugChar (c : Char) : Bool :=
  (('a' ≤ c ∧ c ≤ 'z') ∨ ('0' ≤ c ∧ c ≤ '9') : Prop)

/-- Models `.replace(/[^a-z0-9]+/g, "-")` on a character list: a maximal run of
non-alphanumeric characters becomes a single `'-'`. The flag records whether
the previous character belonged to a run already replaced by `'-'`. -/
def replRunsAux : Bool → List Char → List Char
  | _, [] => []
  | inRun, c :: rest =>
    if isSlugChar c then c :: replRunsAux false rest
    else if inRun then replRunsAux true rest
    else '-' :: replRunsAux true rest

/-- Models `name.toLowerCase().replace(/[^a-z0-9]+/g, "-")` from `TenantManager.create`. -/
def jsSlug (s : String) : String :=
  String.mk (replRunsAux false (s.data.map Char.toLower))

/-! Section: Message envelope protocol

Modelled from the spec (§3, §4.1): `src/core/message.ts` is not under `src/`;
only its callers are. The envelope carries `from`/`to`/`kind`/`payload`/`id`/
`correlationId`; `createMessage` stamps a freshly generated unique id, which
this embedding takes as an explicit parameter (`newId`). The payload union is
a tagged variant; the input and output carried by task/result payloads are
type parameters so each agent can instantiate them with its own shapes. -/

structure TaskPayload (I : Type) where
  action : String
  input : I
deriving DecidableEq

structure ResultPayload (O : Type) where
  success : Bool
  output : O
deriving DecidableEq

structure ErrorPayload where
  code : String
  message : String
  retryable : Bool
deriving DecidableEq

inductive Payload (I O : Type) where
  | task (t : TaskPayload I)
  | result (r : ResultPayload O)
  | error (e : ErrorPayload)
deriving DecidableEq

structure Message (I O : Type) where
  from_ : String
  to_ : String
  kind : String
  payload : Payload I O
  id : String
  correlationId : Option String
deriving DecidableEq

/-- Modelled from the spec (§4.1): `createMessage(from, to, kind, payload,
correlationId?)` produces an envelope with a freshly generated unique `id`;
id generation is externalised as the `newId` parameter. -/
def createMessage {I O : Type} (from_ to_ kind : String) (payload : Payload I O)
    (correlationId : Option String) (newId : String) : Message I O :=
  ⟨from_, to_, kind, payload, newId, correlationId⟩

/-! Section: Tagged memory store

Modelled from the spec (§3, §4.3): `src/core/memory.ts` is not under `src/`.
A store is an insertion-ordered list of attributed entries; `set` overwrites
in place (`key` unique, stable order per §4.3), `get` returns the current
value or an absent indicator, `search` filters by key prefix, `byAgent`
filters by writer attribution, both in the store's stable order. The value
type is a parameter so each agent's store can be instantiated with the
values that agent reads and writes. -/

structure MemEntry (V : Type) where
  key : String
  value : V
  agent : String
  tags : List String
deriving DecidableEq

structure Memory (V : Type) where
  entries : List (MemEntry V)
deriving DecidableEq

/-- The empty store (a freshly provisioned backing location). -/
def Memory.empty {V : Type} : Memory V := ⟨[]⟩

/-- Models `get(key)`: current value of the first (unique) entry with that key. -/
def Memory.get {V : Type} (m : Memory V) (k : String) : Option V :=
  match m.entries.find? (fun e => e.key = k) with
  | some e => some e.value
  | none => none

/-- Models `set(key, value, agent, tags)`: upsert; an existing key is overwritten in
place, a new key is appended. -/
def Memory.set {V : Type} (m : Memory V) (k : String) (v : V) (ag : String)
    (tags : List String) : Memory V :=
  if m.entries.any (fun e => e.key = k) then
    ⟨m.entries.map (fun e => if e.key = k then ⟨k, v, ag, tags⟩ else e)⟩
  else
    ⟨m.entries ++ [⟨k, v, ag, tags⟩]⟩

/-- Models `search(keyPrefixOrTag)` as used by the agents: all entries whose key
starts with the given string, in stable store order. -/
def Memory.search {V : Type} (m : Memory V) (q : String) : List (MemEntry V) :=
  m.entries.filter (fun e => q.data.isPrefixOf e.key.data)

/-- Models `byAgent(agentName)`: all entries last written by the given agent, in
stable store order. -/
def Memory.byAgent {V : Type} (m : Memory V) (ag : String) : List (MemEntry V) :=
  m.entries.filter (fun e => e.agent = ag)

/-! Section: Executor

Modelled from the spec (§1, glossary): `src/core/executor.ts` is not under
`src/`; only its credential-injection interface is used by the registry.
`setCredential(key, value)` records an opaque key-value pair; keys are flat
(not namespaced by platform), exactly as `initTenantResources` calls it. -/

structure Executor where
  creds : List (String × String)
deriving DecidableEq

def Executor.empty : Executor := ⟨[]⟩

def Executor.setCredential (e : Executor) (k v : String) : Executor :=
  ⟨updAssoc e.creds k v⟩

def Executor.getCredential (e : Executor) (k : String) : Option String :=
  assocGet e.creds k

/-! Section: LLM client interface

Modelled from the spec (§6): consumed interface
`chat(messages) → { content: string }`; arbitrary free text is tolerated. -/

structure LLMMessage where
  role : String
  content : String
deriving DecidableEq

/-! Section: Analytics agent (`src/agents/analytics/index.ts`) -/

/-- The metric fields a `track` task may carry in `input.metrics`
(spread over the platform's existing record). -/
structure MetricsPatch where
  views : Option ℚ
  likes : Option ℚ
  shares : Option ℚ
  comments : Option ℚ
  clicks : Option ℚ
  impressions : Option ℚ
  engagement : Option ℚ
deriving DecidableEq

/-- One platform's metrics record inside `ContentMetrics.metrics`. -/
structure PlatStats where
  views : Option ℚ
  likes : Option ℚ
  shares : Option ℚ
  comments : Option ℚ
  clicks : Option ℚ
  impressions : Option ℚ
  engagement : Option ℚ
  updatedAt : String
deriving DecidableEq

def emptyStats : PlatStats :=
  ⟨none, none, none, none, none, none, none, ""⟩

/-- Spread `{...old, ...patch}` on option fields: present patch fields win. -/
def ovrQ (patch old : Option ℚ) : Option ℚ :=
  match patch with
  | some v => some v
  | none => old

/-- Models `existing.metrics[platform] = { ...(existing.metrics[platform] || {}), ...metrics,
updatedAt: new Date().toISOString() }`. -/
def patchStats (old : PlatStats) (p : MetricsPatch) (now : String) : PlatStats :=
  { views := ovrQ p.views old.views
    likes := ovrQ p.likes old.likes
    shares := ovrQ p.shares old.shares
    comments := ovrQ p.comments old.comments
    clicks := ovrQ p.clicks old.clicks
    impressions := ovrQ p.impressions old.impressions
    engagement := ovrQ p.engagement old.engagement
    updatedAt := now }

/-- Models `ContentMetrics` from `src/agents/analytics/index.ts`. `metrics` is a
string-keyed object in JS, modelled as an insertion-ordered association list. -/
structure ContentMetrics where
  id : String
  title : String
  topic : String
  createdAt : String
  platforms : List String
  metrics : List (String × PlatStats)
  tags : List String
deriving DecidableEq

/-- The dynamic `task.input` map as the analytics agent reads it
(`contentId`/`platform`/`metrics`/`title`/`topic`/`tags` for `track`,
`days`/`platform` for `report`, `limit`/`metric` for `top-content`).
`platform` plays `string | undefined` with `""` as the falsy/absent value,
matching the `if (platform && ...)` truthiness test in `report`. -/
structure AInput where
  contentId : String
  platform : String
  metrics : MetricsPatch
  title : Option String
  topic : Option String
  tags : Option (List String)
  days : Option Nat
  limit : Option Nat
  metric : Option String
deriving DecidableEq

/-- One item of the `top-content` output list. -/
structure TopItem where
  title : String
  topic : String
  platforms : List String
  score : ℚ
  metric : String
deriving DecidableEq

/-- The `report` action's output object. -/
structure ReportOut where
  period : String
  platform : String
  contentCount : Nat
  totalViews : ℚ
  totalLikes : ℚ
  totalShares : ℚ
  totalComments : ℚ
  avgEngagement : String
  topPlatform : String
deriving DecidableEq

/-- The analytics agent's result outputs (one constructor per action). -/
inductive AOutput where
  | tracked (contentId platform : String)
  | report (r : ReportOut)
  | insights (l : List String)
  | top (content : List TopItem)
deriving DecidableEq

/-- External numeric/date formatting the analytics agent delegates to the JS
runtime: `Date.toISOString`, `Number.toFixed(2)`, number-to-string coercion
in template literals. -/
structure JsExt where
  toIso : Int → String
  toFixed2 : ℚ → String
  numStr : ℚ → String

/-- Models `(stats as any)[metric] || 0` for the numeric metric fields. -/
def statByName (s : PlatStats) (metric : String) : ℚ :=
  if metric = "views" then (s.views.getD 0)
  else if metric = "likes" then (s.likes.getD 0)
  else if metric = "shares" then (s.shares.getD 0)
  else if metric = "comments" then (s.comments.getD 0)
  else if metric = "clicks" then (s.clicks.getD 0)
  else if metric = "impressions" then (s.impressions.getD 0)
  else if metric = "engagement" then (s.engagement.getD 0)
  else 0

/-- Models `topContent`'s score: the chosen metric summed over every per-platform
metrics record of one `ContentMetrics` value. -/
def metricSum (metric : String) (m : ContentMetrics) : ℚ :=
  m.metrics.foldl (fun acc ps => acc + statByName ps.2 metric) 0

/-- Descending insertion by `f` (stable for ties, like `sort((a,b) => f b - f a)`). -/
def insertDescBy {α : Type} (f : α → ℚ) (x : α) : List α → List α
  | [] => [x]
  | y :: ys => if f y < f x then x :: y :: ys else y :: insertDescBy f x ys

/-- Descending stable sort by `f`, modelling `arr.sort((a, b) => f(b) - f(a))`. -/
def sortDescBy {α : Type} (f : α → ℚ) : List α → List α
  | [] => []
  | x :: xs => insertDescBy f x (sortDescBy f xs)

/-- Models `AnalyticsAgent.track`. `now` is `new Date().toISOString()`; `newId` the
id `createMessage` generates for the reply. -/
def AnalyticsAgent.track (mem : Memory ContentMetrics) (msg : Message AInput AOutput)
    (task : TaskPayload AInput) (now newId : String) :
    Message AInput AOutput × Memory ContentMetrics :=
  let input := task.input
  let key := "metrics:" ++ input.contentId
  let existing : ContentMetrics :=
    match mem.get key with
    | some m => m
    | none =>
      { id := input.contentId
        title := jsOrStr input.title input.contentId
        topic := jsOrStr input.topic ""
        createdAt := now
        platforms := []
        metrics := []
        tags := input.tags.getD [] }
  let st1 := patchStats ((assocGet existing.metrics input.platform).getD emptyStats)
      input.metrics now
  let platforms2 :=
    if input.platform ∈ existing.platforms then existing.platforms
    else existing.platforms ++ [input.platform]
  let st2 :=
    match st1.views with
    | some v =>
      if 0 < v then
        let eng := (st1.likes.getD 0 + st1.comments.getD 0 + st1.shares.getD 0) / v * 100
        { st1 with engagement := some eng }
      else st1
    | none => st1
  let updated := { existing with
    metrics := updAssoc existing.metrics input.platform st2
    platforms := platforms2 }
  let mem2 := mem.set key updated ("analytics")
      (["metrics", input.platform] ++ input.tags.getD [])
  (createMessage ("analytics") msg.from_ ("result")
    (.result ⟨true, .tracked input.contentId input.platform⟩) (some msg.id) newId, mem2)

/-- Sum of one optional stat over all entries passing `report`'s platform filter
(`if (platform && p !== platform) continue`). -/
def sumStat (f : PlatStats → Option ℚ) (platform : String)
    (l : List (MemEntry ContentMetrics)) : ℚ :=
  l.foldl (fun acc e =>
    e.value.metrics.foldl (fun a2 ps =>
      if platform ≠ "" ∧ ps.1 ≠ platform then a2 else a2 + (f ps.2).getD 0) acc) 0

/-- Models `AnalyticsAgent.getTopPlatform`: first platform attaining the maximal total
views (head of the stable descending sort), `"none"` when no platforms. -/
def topPlatformOf (l : List (MemEntry ContentMetrics)) : String :=
  let pv : List (String × ℚ) :=
    l.foldl (fun acc e =>
      e.value.metrics.foldl (fun a2 ps =>
        updAssoc a2 ps.1 (((assocGet a2 ps.1).getD 0) + ps.2.views.getD 0)) acc) []
  match (sortDescBy (fun kv => kv.2) pv).head? with
  | some kv => kv.1
  | none => "none"

/-- Models `AnalyticsAgent.report`. `nowMs` is `Date.now()`. -/
def AnalyticsAgent.report (mem : Memory ContentMetrics) (msg : Message AInput AOutput)
    (task : TaskPayload AInput) (ext : JsExt) (nowMs : Int) (newId : String) :
    Message AInput AOutput × Memory ContentMetrics :=
  let days := jsOrNat task.input.days 30
  let platform := task.input.platform
  let cutoff := ext.toIso (nowMs - (days : Int) * 86400000)
  let allMetrics := (mem.search ("metrics:")).filter
      (fun e => cutoff ≤ e.value.createdAt)
  let totalViews := sumStat PlatStats.views platform allMetrics
  let totalLikes := sumStat PlatStats.likes platform allMetrics
  let totalShares := sumStat PlatStats.shares platform allMetrics
  let totalComments := sumStat PlatStats.comments platform allMetrics
  let avgEngagement :=
    if 0 < totalViews then
      ext.toFixed2 ((totalLikes + totalComments + totalShares) / totalViews * 100)
    else "0"
  (createMessage ("analytics") msg.from_ ("result")
    (.result ⟨true, .report
      { period := "Last " ++ toString days ++ " days"
        platform := jsOrStr (some platform) "all"
        contentCount := allMetrics.length
        totalViews := totalViews
        totalLikes := totalLikes
        totalShares := totalShares
        totalComments := totalComments
        avgEngagement := avgEngagement ++ "%"
        topPlatform := topPlatformOf allMetrics }⟩) (some msg.id) newId, mem)

/-- Per-topic accumulator in `getInsights`. -/
structure TopicPerf where
  views : ℚ
  engagement : ℚ
  count : Nat
deriving DecidableEq

/-- Models `AnalyticsAgent.getInsights`. -/
def AnalyticsAgent.getInsights (mem : Memory ContentMetrics)
    (msg : Message AInput AOutput) (ext : JsExt) (newId : String) :
    Message AInput AOutput × Memory ContentMetrics :=
  let allMetrics := mem.search ("metrics:")
  if allMetrics.isEmpty then
    (createMessage ("analytics") msg.from_ ("result")
      (.result ⟨true, .insights
        ["No content tracked yet. Start generating and tracking to get insights!"]⟩)
      (some msg.id) newId, mem)
  else
    let topicPerformance : List (String × TopicPerf) :=
      allMetrics.foldl (fun acc e =>
        if e.value.topic = "" then acc
        else
          let ex := (assocGet acc e.value.topic).getD ⟨0, 0, 0⟩
          let ex2 := e.value.metrics.foldl (fun a ps =>
            { a with views := a.views + ps.2.views.getD 0,
                     engagement := a.engagement + ps.2.engagement.getD 0 }) ex
          updAssoc acc e.value.topic { ex2 with count := ex2.count + 1 }) []
    let sortedTopics := sortDescBy (fun kv => kv.2.engagement) topicPerformance
    let insights1 :=
      match sortedTopics.head? with
      | some kv =>
        ["📈 Best performing topic: \"" ++ kv.1 ++ "\" with " ++
          ext.numStr kv.2.views ++ " total views"]
      | none => []
    let platformStats : List (String × (ℚ × ℚ)) :=
      allMetrics.foldl (fun acc e =>
        e.value.metrics.foldl (fun a2 ps =>
          let ex := (assocGet a2 ps.1).getD (0, 0)
          updAssoc a2 ps.1
            (ex.1 + ps.2.views.getD 0, ex.2 + ps.2.engagement.getD 0)) acc) []
    let insights2 :=
      match (sortDescBy (fun kv => kv.2.2) platformStats).head? with
      | some kv => ["🏆 Best platform: " ++ kv.1 ++ " (highest engagement)"]
      | none => []
    let insights := insights1 ++ insights2 ++
      ["📊 Total content tracked: " ++ toString allMetrics.length ++ " pieces",
       "💡 Tip: Track metrics regularly to improve content strategy"]
    (createMessage ("analytics") msg.from_ ("result")
      (.result ⟨true, .insights insights⟩) (some msg.id) newId, mem)

/-- Models `AnalyticsAgent.topContent`. -/
def AnalyticsAgent.topContent (mem : Memory ContentMetrics)
    (msg : Message AInput AOutput) (task : TaskPayload AInput) (newId : String) :
    Message AInput AOutput × Memory ContentMetrics :=
  let limit := jsOrNat task.input.limit 5
  let metric := jsOrStr task.input.metric "views"
  let allMetrics := mem.search ("metrics:")
  let scored := allMetrics.map (fun e => (e.value, metricSum metric e.value))
  let sliced := (sortDescBy (fun x => x.2) scored).take limit
  (createMessage ("analytics") msg.from_ ("result")
    (.result ⟨true, .top (sliced.map (fun c =>
      ⟨c.1.title, c.1.topic, c.1.platforms, c.2, metric⟩))⟩)
    (some msg.id) newId, mem)

/-- Models `AnalyticsAgent.handle`: dispatch on `payload.action`; an unrecognized
action yields the `UNKNOWN_ACTION` error envelope. A non-task payload has
`task.action === undefined`, which matches no branch and renders as
`"undefined"` in the template literal. -/
def AnalyticsAgent.handle (mem : Memory ContentMetrics) (ext : JsExt)
    (now : String) (nowMs : Int) (newId : String) (msg : Message AInput AOutput) :
    Message AInput AOutput × Memory ContentMetrics :=
  match msg.payload with
  | .task t =>
    if t.action = "track" then AnalyticsAgent.track mem msg t now newId
    else if t.action = "report" then AnalyticsAgent.report mem msg t ext nowMs newId
    else if t.action = "insights" then AnalyticsAgent.getInsights mem msg ext newId
    else if t.action = "top-content" then AnalyticsAgent.topContent mem msg t newId
    else
      (createMessage ("analytics") msg.from_ ("error")
        (.error ⟨"UNKNOWN_ACTION", "Unknown: " ++ t.action, false⟩)
        (some msg.id) newId, mem)
  | _ =>
    (createMessage ("analytics") msg.from_ ("error")
      (.error ⟨"UNKNOWN_ACTION", "Unknown: undefined", false⟩)
      (some msg.id) newId, mem)

/-! Section: Brand-manager agent (`src/agents/brand-manager/index.ts`) -/

structure SocialStyle where
  twitter : String
  linkedin : String
  instagram : String
deriving DecidableEq

/-- Partial `socialStyle` carried by a `set-brand` task input. -/
structure SocialPatch where
  twitter : Option String
  linkedin : Option String
  instagram : Option String
deriving DecidableEq

structure BrandProfile where
  name : String
  voice : String
  tone : String
  audience : String
  industry : String
  keywords : List String
  avoidWords : List String
  examples : List String
  socialStyle : SocialStyle
  learnings : List String
deriving DecidableEq

def DEFAULT_PROFILE : BrandProfile :=
  { name := "default"
    voice := "professional yet approachable"
    tone := "authoritative but friendly"
    audience := "general"
    industry := "technology"
    keywords := []
    avoidWords := []
    examples := []
    socialStyle :=
      ⟨"engaging threads with hooks and data",
       "thought leadership with insights",
       "visual-friendly with emojis"⟩
    learnings := [] }

/-- The dynamic `task.input` map as the brand-manager reads it. `feedback` and
`sample` are required by the `learn-from-feedback` / `analyze-sample` input
schemas; the rest are optional. -/
structure BInput where
  brandName : Option String
  name : Option String
  voice : Option String
  tone : Option String
  audience : Option String
  industry : Option String
  keywords : Option (List String)
  avoidWords : Option (List String)
  examples : Option (List String)
  learnings : Option (List String)
  socialStyle : Option SocialPatch
  feedback : String
  contentType : Option String
  rating : Option Nat
  sample : String
deriving DecidableEq

/-- The JSON object `learn-from-feedback` expects the LLM to return. -/
structure LearningJson where
  learning : String
  applies_to : String
  priority : String
deriving DecidableEq

/-- The JSON object `analyze-sample` expects the LLM to return. -/
structure AnalysisJson where
  voice : String
  tone : String
  audience : String
  characteristics : List String
  vocabulary_level : String
  sentence_length : String
  use_of_humor : String
  use_of_data : String
  use_of_emojis : String
  recommended_voice : String
deriving DecidableEq

/-- Models `analyze-sample`'s `analysis` output: parsed JSON, the fixed
`{error: "Could not parse"}` object (no match), or the raw-text wrapper
`{raw: response.content}` (match found but `JSON.parse` threw). -/
inductive AnalysisOut where
  | parsed (v : AnalysisJson)
  | couldNotParse
  | raw (s : String)
deriving DecidableEq

/-- Values the brand-manager reads from / writes to its memory: full brand
profiles under `brand:<name>`, shared scalar strings, and feedback records. -/
inductive BVal where
  | prof (p : BrandProfile)
  | str (s : String)
  | fb (feedback learning contentType : String) (rating : Option Nat)
deriving DecidableEq

/-- The brand-manager's result outputs (one constructor per action). -/
inductive BOutput where
  | ctx (profile : BrandProfile) (guidelines : String)
  | saved (profile : BrandProfile)
  | learned (learned appliesTo : String)
  | analysis (a : AnalysisOut)
deriving DecidableEq

/-- Models `this.memory.get(\x60brand:${name}\x60)` then `{...DEFAULT_PROFILE, ...stored}`:
a stored full profile wins on every field; a stored non-profile value
contributes no profile fields, so the defaults survive (name stays
`"default"`); a missing key yields the defaults with `name` set. -/
def BrandManagerAgent.getProfile (mem : Memory BVal) (name : String) : BrandProfile :=
  match mem.get ("brand:" ++ name) with
  | some (.prof p) => p
  | some _ => DEFAULT_PROFILE
  | none => { DEFAULT_PROFILE with name := name }

/-- Models `e.substring(0, 200)`. -/
def takeChars (n : Nat) (s : String) : String :=
  String.mk (s.toList.take n)

/-- Models `BrandManagerAgent.buildGuidelines`. -/
def BrandManagerAgent.buildGuidelines (p : BrandProfile) : String :=
  let g1 := "## Brand Writing Guidelines\n\n" ++
    "**Voice:** " ++ p.voice ++ "\n" ++
    "**Tone:** " ++ p.tone ++ "\n" ++
    "**Target Audience:** " ++ p.audience ++ "\n" ++
    "**Industry:** " ++ p.industry ++ "\n"
  let g2 := if p.keywords.isEmpty then g1 else
    g1 ++ "**Include these keywords when relevant:** " ++
      String.intercalate (", ") p.keywords ++ "\n"
  let g3 := if p.avoidWords.isEmpty then g2 else
    g2 ++ "**NEVER use these words:** " ++
      String.intercalate (", ") p.avoidWords ++ "\n"
  let g4 := if p.examples.isEmpty then g3 else
    g3 ++ "\n**Content examples the brand likes:**\n" ++
      String.join (p.examples.enum.map (fun ie =>
        toString (ie.1 + 1) ++ ". \"" ++ takeChars 200 ie.2 ++ "...\"\n"))
  let g5 := if p.learnings.isEmpty then g4 else
    g4 ++ "\n**Learned preferences (from past feedback):**\n" ++
      String.join (p.learnings.map (fun l => "- " ++ l ++ "\n"))
  g5 ++ "\n**Social Media Style:**\n" ++
    "- Twitter: " ++ p.socialStyle.twitter ++ "\n" ++
    "- LinkedIn: " ++ p.socialStyle.linkedin ++ "\n" ++
    "- Instagram: " ++ p.socialStyle.instagram ++ "\n"

/-- Models `BrandManagerAgent.getBrandContext` (also the fallthrough for any
unrecognized action). -/
def BrandManagerAgent.getBrandContext (mem : Memory BVal)
    (msg : Message BInput BOutput) (task : TaskPayload BInput) (newId : String) :
    Message BInput BOutput × Memory BVal :=
  let brandName := jsOrStr task.input.brandName ("default")
  let profile := BrandManagerAgent.getProfile mem brandName
  let guidelines := BrandManagerAgent.buildGuidelines profile
  (createMessage ("brand-manager") msg.from_ ("result")
    (.result ⟨true, .ctx profile guidelines⟩) (some msg.id) newId, mem)

/-- Spread `{...existing.socialStyle, ...(task.input.socialStyle || {})}`. -/
def mergeSocial (old : SocialStyle) (p : Option SocialPatch) : SocialStyle :=
  match p with
  | some sp =>
    ⟨sp.twitter.getD old.twitter, sp.linkedin.getD old.linkedin,
     sp.instagram.getD old.instagram⟩
  | none => old

/-- Models `JSON.stringify(updated.socialStyle)`. -/
def jsonStringifySocial (s : SocialStyle) : String :=
  "\x7b\x22twitter\x22:\x22" ++ s.twitter ++
  "\x22,\x22linkedin\x22:\x22" ++ s.linkedin ++
  "\x22,\x22instagram\x22:\x22" ++ s.instagram ++ "\x22\x7d"

/-- Models `BrandManagerAgent.setBrand`: merge the partial input over the stored
profile (`{...existing, ...task.input, ...}` with explicit overrides for
`socialStyle`, `keywords`, `avoidWords`, `examples`, `learnings`), store the
result, refresh the shared scalar keys, and answer with the updated profile. -/
def BrandManagerAgent.setBrand (mem : Memory BVal) (msg : Message BInput BOutput)
    (task : TaskPayload BInput) (newId : String) :
    Message BInput BOutput × Memory BVal :=
  let input := task.input
  let brandName := jsOrStr input.name (jsOrStr input.brandName ("default"))
  let existing := BrandManagerAgent.getProfile mem brandName
  let updated : BrandProfile :=
    { name := input.name.getD existing.name
      voice := input.voice.getD existing.voice
      tone := input.tone.getD existing.tone
      audience := input.audience.getD existing.audience
      industry := input.industry.getD existing.industry
      socialStyle := mergeSocial existing.socialStyle input.socialStyle
      keywords := jsDedup (existing.keywords ++ input.keywords.getD [])
      avoidWords := jsDedup (existing.avoidWords ++ input.avoidWords.getD [])
      examples := lastN 10 (existing.examples ++ input.examples.getD [])
      learnings := existing.learnings ++ input.learnings.getD [] }
  let mem2 := mem.set ("brand:" ++ brandName) (.prof updated) ("brand-manager")
      (["brand", brandName])
  let mem3 := mem2.set ("brand_voice") (.str updated.voice) ("brand-manager") (["brand"])
  let mem4 := mem3.set ("brand_tone") (.str updated.tone) ("brand-manager") (["brand"])
  let mem5 := mem4.set ("brand_audience") (.str updated.audience) ("brand-manager") (["brand"])
  let mem6 := mem5.set ("social_tone") (.str (jsonStringifySocial updated.socialStyle))
      ("brand-manager") (["brand"])
  (createMessage ("brand-manager") msg.from_ ("result")
    (.result ⟨true, .saved updated⟩) (some msg.id) newId, mem6)

/-- The regex `/\x7b[\s\S]*\x7d/` applied to free text: the (leftmost-longest)
match runs from the first `'\x7b'` to the last `'\x7d'`, provided that `'\x7d'`
comes after that `'\x7b'`; otherwise there is no match. -/
def extractBraces (s : String) : Option String :=
  let cs := s.toList
  match cs.findIdx? (fun c => c = '\x7b') with
  | none => none
  | some i =>
    match cs.reverse.findIdx? (fun c => c = '\x7d') with
    | none => none
    | some rj =>
      let j := cs.length - 1 - rj
      if i < j then some (String.mk ((cs.drop i).take (j - i + 1))) else none

/-- The system prompt of `learnFromFeedback`, verbatim. -/
def learnSystemPrompt : String :=
  "You are a brand learning system. Extract actionable writing rules from user feedback.\n\n" ++
  "Convert feedback into specific, reusable rules. Examples:\n" ++
  "- \"Too formal\" → \"Use conversational tone, contractions, and shorter sentences\"\n" ++
  "- \"Not enough data\" → \"Include at least 3 statistics or data points per blog post\"\n" ++
  "- \"Love the humor\" → \"Continue using light humor and analogies\"\n\n" ++
  "Return ONLY valid JSON:\n\x7b\n" ++
  "  \x22learning\x22: \x22the specific actionable rule\x22,\n" ++
  "  \x22applies_to\x22: \x22blog|social|twitter|linkedin|instagram|all\x22,\n" ++
  "  \x22priority\x22: \x22high|medium|low\x22\n\x7d"

/-- The messages `learnFromFeedback` sends to the LLM. -/
def feedbackMessages (input : BInput) : List LLMMessage :=
  [⟨"system", learnSystemPrompt⟩,
   ⟨"user",
     "Feedback on " ++ jsOrStr input.contentType ("general") ++ " content" ++
     (match input.rating with
      | some r => if r = 0 then "" else " (rating: " ++ toString r ++ "/5)"
      | none => "") ++
     ":\n\"" ++ input.feedback ++ "\""⟩]

/-- Models `BrandManagerAgent.learnFromFeedback`. `chat` is the external LLM client,
`parseL` is `JSON.parse` specialised to the expected learning shape (`none`
models both a thrown parse error and a non-matching value), `nowMs` is
`Date.now()`. -/
def BrandManagerAgent.learnFromFeedback (chat : List LLMMessage → String)
    (parseL : String → Option LearningJson) (mem : Memory BVal)
    (msg : Message BInput BOutput) (task : TaskPayload BInput)
    (nowMs : Int) (newId : String) : Message BInput BOutput × Memory BVal :=
  let input := task.input
  let contentType := jsOrStr input.contentType ("general")
  let response := chat (feedbackMessages input)
  let learning : LearningJson :=
    match extractBraces response with
    | some m => (parseL m).getD ⟨input.feedback, "all", "medium"⟩
    | none => ⟨input.feedback, "all", "medium"⟩
  let profile := BrandManagerAgent.getProfile mem ("default")
  let learnings2 := profile.learnings ++
      ["[" ++ learning.applies_to ++ "] " ++ learning.learning]
  let learnings3 := if 20 < learnings2.length then lastN 20 learnings2 else learnings2
  let profile2 := { profile with learnings := learnings3 }
  let mem2 := mem.set ("brand:default") (.prof profile2) ("brand-manager")
      (["brand", "learning"])
  let mem3 := mem2.set ("feedback:" ++ toString nowMs)
      (.fb input.feedback learning.learning contentType input.rating)
      ("brand-manager") (["feedback", contentType])
  (createMessage ("brand-manager") msg.from_ ("result")
    (.result ⟨true, .learned learning.learning learning.applies_to⟩)
    (some msg.id) newId, mem3)

/-- The system prompt of `analyzeSample`, verbatim. -/
def analyzeSystemPrompt : String :=
  "Analyze this content sample and extract the brand voice, tone, and style.\n\n" ++
  "Return ONLY valid JSON:\n\x7b\n" ++
  "  \x22voice\x22: \x22description of writing voice\x22,\n" ++
  "  \x22tone\x22: \x22description of tone\x22,\n" ++
  "  \x22audience\x22: \x22who this is written for\x22,\n" ++
  "  \x22characteristics\x22: [\x22list\x22, \x22of\x22, \x22key\x22, \x22characteristics\x22],\n" ++
  "  \x22vocabulary_level\x22: \x22simple|moderate|advanced\x22,\n" ++
  "  \x22sentence_length\x22: \x22short|medium|long|mixed\x22,\n" ++
  "  \x22use_of_humor\x22: \x22none|light|heavy\x22,\n" ++
  "  \x22use_of_data\x22: \x22none|light|heavy\x22,\n" ++
  "  \x22use_of_emojis\x22: \x22none|light|heavy\x22,\n" ++
  "  \x22recommended_voice\x22: \x22a concise brand voice description to use as a writing guideline\x22\n\x7d"

/-- The messages `analyzeSample` sends to the LLM. -/
def analyzeMessages (input : BInput) : List LLMMessage :=
  [⟨"system", analyzeSystemPrompt⟩,
   ⟨"user", "Analyze this content:\n\n" ++ input.sample⟩]

/-- Models `BrandManagerAgent.analyzeSample`: extract JSON from the response; no
brace match yields the fixed `couldNotParse` object, a match that fails to
parse yields the raw-text wrapper. -/
def BrandManagerAgent.analyzeSample (chat : List LLMMessage → String)
    (parseA : String → Option AnalysisJson) (mem : Memory BVal)
    (msg : Message BInput BOutput) (task : TaskPayload BInput) (newId : String) :
    Message BInput BOutput × Memory BVal :=
  let response := chat (analyzeMessages task.input)
  let analysis : AnalysisOut :=
    match extractBraces response with
    | some m =>
      match parseA m with
      | some v => .parsed v
      | none => .raw response
    | none => .couldNotParse
  (createMessage ("brand-manager") msg.from_ ("result")
    (.result ⟨true, .analysis analysis⟩) (some msg.id) newId, mem)

/-- Models `BrandManagerAgent.handle`: dispatch on `payload.action`; any
unrecognized action falls through to `getBrandContext` (the code comments it
`// Default: get-brand-context`). A non-task payload makes `task.input`
undefined and the JS code throw on property access, modelled as `none`. -/
def BrandManagerAgent.handle (chat : List LLMMessage → String)
    (parseL : String → Option LearningJson) (parseA : String → Option AnalysisJson)
    (mem : Memory BVal) (nowMs : Int) (newId : String)
    (msg : Message BInput BOutput) : Option (Message BInput BOutput × Memory BVal) :=
  match msg.payload with
  | .task t =>
    if t.action = "set-brand" then
      some (BrandManagerAgent.setBrand mem msg t newId)
    else if t.action = "learn-from-feedback" then
      some (BrandManagerAgent.learnFromFeedback chat parseL mem msg t nowMs newId)
    else if t.action = "analyze-sample" then
      some (BrandManagerAgent.analyzeSample chat parseA mem msg t newId)
    else
      some (BrandManagerAgent.getBrandContext mem msg t newId)
  | _ => none

/-! Section: Tenant resource registry (`TenantManager`, second file under
`src/agents/analytics/`) -/

@[ext] structure TenantBrand where
  voice : String
  tone : String
  audience : String
  industry : String
  keywords : List String
  avoidWords : List String
deriving DecidableEq

@[ext] structure TenantSettings where
  defaultType : String
  defaultModel : Option String
  autoPublish : Bool
  platforms : List String
deriving DecidableEq

structure TenantConfig where
  id : String
  name : String
  slug : String
  brand : TenantBrand
  platforms : List (String × List (String × String))
  settings : TenantSettings
  createdAt : String
  updatedAt : String
deriving DecidableEq

/-- Values the `TenantManager` seeds into a tenant's memory: shared scalar
strings and the tenant's brand record (under `brand:<slug>`). -/
inductive TVal where
  | str (s : String)
  | tbrand (b : TenantBrand)
deriving DecidableEq

/-- JS template-literal coercion `${value}` for stored values: a string stays
itself, a plain object renders as `[object Object]`. -/
def jsShowTVal : TVal → String
  | .str s => s
  | .tbrand _ => "[object Object]"

structure TenantManager where
  dataDir : String
  tenants : List (String × TenantConfig)
  memories : List (String × Memory TVal)
  executors : List (String × Executor)
deriving DecidableEq

/-- The executor built by `initTenantResources`: `setCredential(key, value)`
for every credential pair of every platform, in object iteration order. -/
def buildExecutor (platforms : List (String × List (String × String))) : Executor :=
  platforms.foldl (fun ex pc =>
    pc.2.foldl (fun e2 kv => e2.setCredential kv.1 kv.2) ex) Executor.empty

/-- Models `TenantManager.initTenantResources`. The `new Memory(memDir)` +
`await mem.init()` pair re-opens the tenant's persisted backing location
(spec §4.3/§4.4: persistence lives in the backing store, so re-provisioning
must not lose previously persisted entries); in this embedding the persisted
contents are the entries already held for that tenant id, or an empty store
for a fresh tenant. The executor is rebuilt from scratch from the tenant's
current `platforms` credentials. -/
def TenantManager.initTenantResources (tm : TenantManager) (tenant : TenantConfig) :
    TenantManager :=
  let mem := (assocGet tm.memories tenant.id).getD Memory.empty
  { tm with
    memories := updAssoc tm.memories tenant.id mem
    executors := updAssoc tm.executors tenant.id (buildExecutor tenant.platforms) }

/-- Partial `brand` in a create/update request. -/
structure PartialBrand where
  voice : Option String
  tone : Option String
  audience : Option String
  industry : Option String
  keywords : Option (List String)
  avoidWords : Option (List String)
deriving DecidableEq

/-- Partial `settings` in a create/update request. -/
structure PartialSettings where
  defaultType : Option String
  defaultModel : Option String
  autoPublish : Option Bool
  platforms : Option (List String)
deriving DecidableEq

/-- Models `Partial<TenantConfig> & { name: string }` as `create` consumes it. -/
structure PartialTenantConfig where
  name : String
  slug : Option String
  brand : Option PartialBrand
  platforms : Option (List (String × List (String × String)))
  settings : Option PartialSettings
deriving DecidableEq

/-- Models `TenantManager.create`. `newId` stands for the generated
`tenant_${Date.now()}_${random}` id and `now` for `new Date().toISOString()`. -/
def TenantManager.create (tm : TenantManager) (config : PartialTenantConfig)
    (newId now : String) : TenantConfig × TenantManager :=
  let slug := jsOrStr config.slug (jsSlug config.name)
  let tenant : TenantConfig :=
    { id := newId
      name := config.name
      slug := slug
      brand :=
        { voice := jsOrStr (config.brand.bind PartialBrand.voice)
            ("professional yet approachable")
          tone := jsOrStr (config.brand.bind PartialBrand.tone)
            ("authoritative but friendly")
          audience := jsOrStr (config.brand.bind PartialBrand.audience) ("general")
          industry := jsOrStr (config.brand.bind PartialBrand.industry) ("technology")
          keywords := (config.brand.bind PartialBrand.keywords).getD []
          avoidWords := (config.brand.bind PartialBrand.avoidWords).getD [] }
      platforms := config.platforms.getD []
      settings :=
        { defaultType := jsOrStr (config.settings.bind PartialSettings.defaultType)
            ("blog+social")
          defaultModel := config.settings.bind PartialSettings.defaultModel
          autoPublish := (config.settings.bind PartialSettings.autoPublish).getD false
          platforms := (config.settings.bind PartialSettings.platforms).getD
            ["local-file"] }
      createdAt := now
      updatedAt := now }
  let tm1 := { tm with tenants := updAssoc tm.tenants newId tenant }
  let tm2 := tm1.initTenantResources tenant
  let mem := (assocGet tm2.memories newId).getD Memory.empty
  let mem1 := mem.set ("brand_voice") (.str tenant.brand.voice) ("brand-manager") (["brand"])
  let mem2 := mem1.set ("brand_tone") (.str tenant.brand.tone) ("brand-manager") (["brand"])
  let mem3 := mem2.set ("brand_audience") (.str tenant.brand.audience)
      ("brand-manager") (["brand"])
  let mem4 := mem3.set ("brand:" ++ slug) (.tbrand tenant.brand) ("brand-manager") (["brand"])
  let tm3 := { tm2 with memories := updAssoc tm2.memories newId mem4 }
  (tenant, tm3)

/-- Partial update as `update` consumes it. -/
structure PartialTenantUpdate where
  name : Option String
  brand : Option PartialBrand
  platforms : Option (List (String × List (String × String)))
  settings : Option PartialSettings
deriving DecidableEq

/-- Spread `{...tenant.brand, ...updates.brand}`: a present field wins even
when it is the empty string (plain spread, no truthiness here). -/
def mergeBrandUpd (old : TenantBrand) (u : PartialBrand) : TenantBrand :=
  { voice := u.voice.getD old.voice
    tone := u.tone.getD old.tone
    audience := u.audience.getD old.audience
    industry := u.industry.getD old.industry
    keywords := u.keywords.getD old.keywords
    avoidWords := u.avoidWords.getD old.avoidWords }

/-- Spread `{...tenant.settings, ...updates.settings}`. -/
def mergeSettingsUpd (old : TenantSettings) (u : PartialSettings) : TenantSettings :=
  { defaultType := u.defaultType.getD old.defaultType
    defaultModel := match u.defaultModel with | some m => some m | none => old.defaultModel
    autoPublish := u.autoPublish.getD old.autoPublish
    platforms := u.platforms.getD old.platforms }

/-- Models `TenantManager.update`: merges fields (with `if (updates.name)`
truthiness on the scalar), and — when `platforms` is present — merges the
credential maps by spread and re-provisions the tenant's resources. -/
def TenantManager.update (tm : TenantManager) (id : String)
    (updates : PartialTenantUpdate) (now : String) :
    Option TenantConfig × TenantManager :=
  match assocGet tm.tenants id with
  | none => (none, tm)
  | some tenant =>
    let t1 := match updates.name with
      | some n => if n = "" then tenant else { tenant with name := n }
      | none => tenant
    let t2 := match updates.brand with
      | some b => { t1 with brand := mergeBrandUpd t1.brand b }
      | none => t1
    let step := match updates.platforms with
      | some p =>
        let t3 := { t2 with platforms := jsSpread t2.platforms p }
        (t3, tm.initTenantResources t3)
      | none => (t2, tm)
    let t4 := match updates.settings with
      | some s => { step.1 with settings := mergeSettingsUpd step.1.settings s }
      | none => step.1
    let t5 := { t4 with updatedAt := now }
    (some t5, { step.2 with tenants := updAssoc step.2.tenants id t5 })

/-- Models `TenantManager.delete`. -/
def TenantManager.delete (tm : TenantManager) (id : String) :
    Bool × TenantManager :=
  (tm.tenants.any (fun kv => kv.1 = id),
   { tm with
     tenants := tm.tenants.filter (fun kv => kv.1 ≠ id)
     memories := tm.memories.filter (fun kv => kv.1 ≠ id)
     executors := tm.executors.filter (fun kv => kv.1 ≠ id) })

/-- Models `TenantManager.get`. -/
def TenantManager.get (tm : TenantManager) (id : String) : Option TenantConfig :=
  assocGet tm.tenants id

/-- Models `TenantManager.getBySlug`: linear scan. -/
def TenantManager.getBySlug (tm : TenantManager) (slug : String) : Option TenantConfig :=
  (tm.tenants.map Prod.snd).find? (fun t => t.slug = slug)

/-- Models `TenantManager.list`. -/
def TenantManager.list (tm : TenantManager) : List TenantConfig :=
  tm.tenants.map Prod.snd

/-- Models `TenantManager.getMemory`. -/
def TenantManager.getMemory (tm : TenantManager) (id : String) : Option (Memory TVal) :=
  assocGet tm.memories id

/-- Models `TenantManager.getExecutor`. -/
def TenantManager.getExecutor (tm : TenantManager) (id : String) : Option Executor :=
  assocGet tm.executors id

/-- The header of the tenant brand-guidelines document. -/
def tenantGuidelinesHeader (t : TenantConfig) : String :=
  "## Brand Writing Guidelines — " ++ t.name ++ "\n\n" ++
  "**Voice:** " ++ t.brand.voice ++ "\n" ++
  "**Tone:** " ++ t.brand.tone ++ "\n" ++
  "**Target Audience:** " ++ t.brand.audience ++ "\n" ++
  "**Industry:** " ++ t.brand.industry ++ "\n"

/-- The conditional keyword / avoid-word lines of the guidelines document. -/
def tenantGuidelinesKw (t : TenantConfig) : String :=
  (if t.brand.keywords.isEmpty then "" else
    "**Include keywords:** " ++ String.intercalate (", ") t.brand.keywords ++ "\n") ++
  (if t.brand.avoidWords.isEmpty then "" else
    "**NEVER use:** " ++ String.intercalate (", ") t.brand.avoidWords ++ "\n")

/-- One `- ${l.key}: ${l.value}` line of the learned-preferences section. -/
def learnLine (e : MemEntry TVal) : String :=
  "- " ++ e.key ++ ": " ++ jsShowTVal e.value ++ "\n"

/-- The learned-preferences section: present only when the tenant has a
cached store and the brand-manager has written entries; renders
`learnings.slice(-10)`. -/
def tenantGuidelinesMemPart (memOpt : Option (Memory TVal)) : String :=
  match memOpt with
  | none => ""
  | some m =>
    let learnings := m.byAgent ("brand-manager")
    if learnings.isEmpty then ""
    else "\n**Learned preferences:**\n" ++
      String.join ((lastN 10 learnings).map learnLine)

/-- Models `TenantManager.getBrandGuidelines`. -/
def TenantManager.getBrandGuidelines (tm : TenantManager) (tenantId : String) : String :=
  match assocGet tm.tenants tenantId with
  | none => ""
  | some t =>
    tenantGuidelinesHeader t ++ tenantGuidelinesKw t ++
      tenantGuidelinesMemPart (assocGet tm.memories tenantId)

/-- The registry before any tenant exists. -/
def emptyTM (dataDir : String) : TenantManager :=
  ⟨dataDir, [], [], []⟩

/-! Section: General lemmas about the JS-idiom helpers -/

theorem assocGet_updAssoc_self {α : Type} (l : List (String × α)) (k : String) (v : α) :
    assocGet (updAssoc l k v) k = some v := by
  induction l with
  | nil => simp [updAssoc, assocGet]
  | cons kv rest ih =>
    obtain ⟨k2, w⟩ := kv
    by_cases h : k2 = k
    · simp [updAssoc, assocGet, h]
    · simp [updAssoc, assocGet, h, ih]

theorem assocGet_updAssoc_ne {α : Type} (l : List (String × α)) (k k2 : String) (v : α)
    (h : k2 ≠ k) : assocGet (updAssoc l k v) k2 = assocGet l k2 := by
  induction l with
  | nil => simp [updAssoc, assocGet, Ne.symm h]
  | cons kv rest ih =>
    obtain ⟨k3, w⟩ := kv
    by_cases h3 : k3 = k
    · subst h3
      simp [updAssoc, assocGet, Ne.symm h]
    · by_cases h2 : k3 = k2
      · subst h2
        simp [updAssoc, assocGet, h3, h]
      · simp [updAssoc, assocGet, h3, h2, ih]

theorem mem_dedupAux (l : List String) : ∀ (seen : List String) (x : String),
    x ∈ dedupAux seen l ↔ x ∈ l ∧ x ∉ seen := by
  induction l with
  | nil => intro seen x; simp [dedupAux]
  | cons y ys ih =>
    intro seen x
    by_cases h : y ∈ seen
    · by_cases hxy : x = y <;> simp [dedupAux, h, ih, hxy] <;> tauto
    · by_cases hxy : x = y <;> simp [dedupAux, h, ih, hxy] <;> tauto

theorem nodup_dedupAux (l : List String) : ∀ (seen : List String),
    (dedupAux seen l).Nodup := by
  induction l with
  | nil => intro seen; simp [dedupAux]
  | cons y ys ih =>
    intro seen
    by_cases h : y ∈ seen
    · simp [dedupAux, h, ih]
    · simp only [dedupAux, h, if_neg]
      refine List.Nodup.cons ?_ (ih (y :: seen))
      intro hmem
      have := (mem_dedupAux ys (y :: seen) y).mp hmem
      simp at this

theorem mem_jsDedup (l : List String) (x : String) : x ∈ jsDedup l ↔ x ∈ l := by
  simp [jsDedup, mem_dedupAux]

theorem nodup_jsDedup (l : List String) : (jsDedup l).Nodup :=
  nodup_dedupAux l []

theorem lastN_length_le {α : Type} (n : Nat) (l : List α) : (lastN n l).length ≤ n := by
  simp [lastN]
  omega

theorem lastN_suffix {α : Type} (n : Nat) (l : List α) : (lastN n l).IsSuffix l :=
  List.drop_suffix _ _

theorem lastN_eq_nil_iff {α : Type} (n : Nat) (hn : 0 < n) (l : List α) :
    lastN n l = [] ↔ l = [] := by
  cases l with
  | nil => simp [lastN]
  | cons a as =>
    constructor
    · intro h
      exfalso
      have hlen := congrArg List.length h
      simp [lastN] at hlen
      omega
    · intro h
      simp at h

theorem mem_insertDescBy {α : Type} (f : α → ℚ) (x y : α) (l : List α) :
    y ∈ insertDescBy f x l ↔ y = x ∨ y ∈ l := by
  induction l with
  | nil => simp [insertDescBy]
  | cons z zs ih =>
    by_cases h : f z < f x <;> simp [insertDescBy, h, ih] <;> try tauto

theorem pairwise_insertDescBy {α : Type} (f : α → ℚ) (x : α) (l : List α)
    (hl : l.Pairwise (fun a b => f b ≤ f a)) :
    (insertDescBy f x l).Pairwise (fun a b => f b ≤ f a) := by
  induction l with
  | nil => simp [insertDescBy]
  | cons z zs ih =>
    rcases List.pairwise_cons.mp hl with ⟨hz, hzs⟩
    by_cases h : f z < f x
    · rw [insertDescBy, if_pos h]
      refine List.pairwise_cons.mpr ⟨?_, hl⟩
      intro y hy
      rcases List.mem_cons.mp hy with rfl | hy2
      · exact le_of_lt h
      · exact le_trans (hz y hy2) (le_of_lt h)
    · rw [insertDescBy, if_neg h]
      refine List.pairwise_cons.mpr ⟨?_, ih hzs⟩
      intro y hy
      rcases (mem_insertDescBy f x y zs).mp hy with rfl | hy2
      · exact not_lt.mp h
      · exact hz y hy2

theorem pairwise_sortDescBy {α : Type} (f : α → ℚ) (l : List α) :
    (sortDescBy f l).Pairwise (fun a b => f b ≤ f a) := by
  induction l with
  | nil => simp [sortDescBy]
  | cons x xs ih => exact pairwise_insertDescBy f x _ ih

theorem length_insertDescBy {α : Type} (f : α → ℚ) (x : α) (l : List α) :
    (insertDescBy f x l).length = l.length + 1 := by
  induction l with
  | nil => simp [insertDescBy]
  | cons z zs ih =>
    by_cases h : f z < f x <;> simp [insertDescBy, h, ih]

theorem length_sortDescBy {α : Type} (f : α → ℚ) (l : List α) :
    (sortDescBy f l).length = l.length := by
  induction l with
  | nil => simp [sortDescBy]
  | cons x xs ih => simp [sortDescBy, length_insertDescBy, ih]

theorem mem_sortDescBy {α : Type} (f : α → ℚ) (y : α) (l : List α) :
    y ∈ sortDescBy f l ↔ y ∈ l := by
  induction l with
  | nil => simp [sortDescBy]
  | cons x xs ih => simp [sortDescBy, mem_insertDescBy, ih]

/-! Section: General lemmas about the memory store -/

theorem Memory.mem_set_entries {V : Type} (m : Memory V) (k : String) (v : V)
    (ag : String) (tags : List String) (e : MemEntry V)
    (he : e ∈ (m.set k v ag tags).entries) :
    e ∈ m.entries ∨ e = ⟨k, v, ag, tags⟩ := by
  unfold Memory.set at he
  split at he
  · simp only at he
    obtain ⟨e0, he0, heq⟩ := List.mem_map.mp he
    by_cases h : e0.key = k
    · right
      rw [if_pos h] at heq
      exact heq.symm
    · left
      rw [if_neg h] at heq
      exact heq ▸ he0
  · simp only at he
    rcases List.mem_append.mp he with h | h
    · left; exact h
    · right; simpa using h

theorem Memory.get_some_mem {V : Type} (m : Memory V) (k : String) (v : V)
    (h : m.get k = some v) : ∃ e ∈ m.entries, e.value = v := by
  unfold Memory.get at h
  split at h
  · next e he =>
    exact ⟨e, List.mem_of_find?_eq_some he, Option.some.inj h⟩
  · cases h

/-! Section: Claim C3 -/

/-- The create request of the C3 scenario: `{name: "Acme"}` and nothing else. -/
def cfgAcme : PartialTenantConfig := ⟨"Acme", none, none, none, none⟩

/-- C3: `create({name: "Acme"})` with no other fields yields slug `"acme"`
(the lower-case/replace-runs derivation applied to the name), default
`brand.voice` `"professional yet approachable"`, and `settings.platforms`
`["local-file"]`. -/
theorem c3_create_acme :
    ((TenantManager.create (emptyTM "/data") cfgAcme "tenant_1" "2026-01-01T00:00:00Z").1.slug
        = "acme") ∧
    ((TenantManager.create (emptyTM "/data") cfgAcme "tenant_1" "2026-01-01T00:00:00Z").1.slug
        = jsSlug "Acme") ∧
    ((TenantManager.create (emptyTM "/data") cfgAcme "tenant_1" "2026-01-01T00:00:00Z").1.brand.voice
        = "professional yet approachable") ∧
    ((TenantManager.create (emptyTM "/data") cfgAcme "tenant_1" "2026-01-01T00:00:00Z").1.settings.platforms
        = ["local-file"]) := by
  refine ⟨by decide, rfl, rfl, rfl⟩

/-! Section: Claim C4 -/

/-- Brand fields merged over the documented defaults, written from the amended
claim: a supplied non-empty string field is kept; a supplied empty string or
an unset field takes the documented default; supplied keyword lists are kept
and unset ones default to the empty list. -/
def specBrandMerge (b : Option PartialBrand) : TenantBrand :=
  { voice :=
      match b.bind PartialBrand.voice with
      | some v => if v = "" then "professional yet approachable" else v
      | none => "professional yet approachable"
    tone :=
      match b.bind PartialBrand.tone with
      | some v => if v = "" then "authoritative but friendly" else v
      | none => "authoritative but friendly"
    audience :=
      match b.bind PartialBrand.audience with
      | some v => if v = "" then "general" else v
      | none => "general"
    industry :=
      match b.bind PartialBrand.industry with
      | some v => if v = "" then "technology" else v
      | none => "technology"
    keywords := (b.bind PartialBrand.keywords).getD []
    avoidWords := (b.bind PartialBrand.avoidWords).getD [] }

/-- Settings merged over the documented defaults, written from the amended
claim: a supplied `defaultType` is kept unless empty; `defaultModel` is kept
exactly as supplied with no default; a supplied `autoPublish` (including
`false`) is kept, defaulting to `false`; a supplied platform list is kept,
defaulting to `["local-file"]`. -/
def specSettingsMerge (s : Option PartialSettings) : TenantSettings :=
  { defaultType :=
      match s.bind PartialSettings.defaultType with
      | some v => if v = "" then "blog+social" else v
      | none => "blog+social"
    defaultModel := s.bind PartialSettings.defaultModel
    autoPublish := (s.bind PartialSettings.autoPublish).getD false
    platforms := (s.bind PartialSettings.platforms).getD ["local-file"] }

/-- C4 (amended): after `create(config)` returns a tenant with some id,
`get(id)` returns exactly the created record, whose `brand` and `settings`
equal the supplied values merged over the documented defaults — where a
supplied *empty string* counts as unset (the `||` fallback) and a supplied
`autoPublish: false` is kept (the `??` fallback). -/
theorem c4_roundtrip_merge (tm : TenantManager) (cfg : PartialTenantConfig)
    (newId now : String) :
    TenantManager.get (TenantManager.create tm cfg newId now).2 newId =
      some (TenantManager.create tm cfg newId now).1 ∧
    (TenantManager.create tm cfg newId now).1.brand = specBrandMerge cfg.brand ∧
    (TenantManager.create tm cfg newId now).1.settings = specSettingsMerge cfg.settings := by
  refine ⟨?_, ?_, ?_⟩
  · simp [TenantManager.create, TenantManager.get, TenantManager.initTenantResources,
      assocGet_updAssoc_self]
  · refine TenantBrand.ext ?_ ?_ ?_ ?_ ?_ ?_ <;> rfl
  · refine TenantSettings.ext ?_ ?_ ?_ ?_ <;> rfl

/-- The create request refuting C4 as stated: `brand.voice` is supplied but
empty. -/
def cfgC4 : PartialTenantConfig :=
  ⟨"Acme", none, some ⟨some "", none, none, none, none, none⟩, none, none⟩

/-- C4 (counterexample): the configuration supplies `brand.voice = ""`, yet
the record `get` returns after `create` carries the default voice, so not
every supplied field is kept. -/
theorem c4_counterexample :
    cfgC4.brand.map PartialBrand.voice = some (some "") ∧
    (TenantManager.get (TenantManager.create (emptyTM "/d") cfgC4 "t1" "now").2 "t1").map
        (fun t => t.brand.voice) = some "professional yet approachable" ∧
    ("professional yet approachable" : String) ≠ "" := by
  refine ⟨rfl, ?_, by decide⟩
  have h := (c4_roundtrip_merge (emptyTM "/d") cfgC4 "t1" "now").1
  rw [h]
  rfl

/-! Section: Claim C5 -/

/-- Projection picking the saved profile out of a `set-brand` reply. -/
def savedOf (m : Message BInput BOutput) : Option BrandProfile :=
  match m.payload with
  | .result ⟨_, .saved p⟩ => some p
  | _ => none

/-- The stored profile `setBrand` merges into, before the merge. -/
def setBrandExisting (mem : Memory BVal) (t : TaskPayload BInput) : BrandProfile :=
  BrandManagerAgent.getProfile mem (jsOrStr t.input.name (jsOrStr t.input.brandName ("default")))

/-- C5 (amended): in `set-brand`, merging a partial profile over the existing
one union-deduplicates `keywords` and `avoidWords` (first occurrence kept)
and appends `examples` keeping at most the last 10 — but appends `learnings`
with no cap at all; the 20-entry cap on learnings is applied only by the
`learn-from-feedback` action. -/
theorem c5_set_brand_merge (mem : Memory BVal) (msg : Message BInput BOutput)
    (t : TaskPayload BInput) (newId : String) (p : BrandProfile)
    (hp : savedOf (BrandManagerAgent.setBrand mem msg t newId).1 = some p) :
    p.keywords.Nodup ∧ p.avoidWords.Nodup ∧
    (∀ x, x ∈ p.keywords ↔
      x ∈ (setBrandExisting mem t).keywords ∨ x ∈ t.input.keywords.getD []) ∧
    (∀ x, x ∈ p.avoidWords ↔
      x ∈ (setBrandExisting mem t).avoidWords ∨ x ∈ t.input.avoidWords.getD []) ∧
    p.examples = lastN 10 ((setBrandExisting mem t).examples ++ t.input.examples.getD []) ∧
    p.examples.length ≤ 10 ∧
    p.learnings = (setBrandExisting mem t).learnings ++ t.input.learnings.getD [] := by
  simp only [BrandManagerAgent.setBrand, savedOf, createMessage] at hp
  injection hp with hp2
  subst hp2
  refine ⟨nodup_jsDedup _, nodup_jsDedup _, ?_, ?_, rfl, lastN_length_le _ _, rfl⟩
  · intro x
    rw [mem_jsDedup, List.mem_append]
    rfl
  · intro x
    rw [mem_jsDedup, List.mem_append]
    rfl

/-- A profile that already holds 20 learnings. -/
def profC5 : BrandProfile := { DEFAULT_PROFILE with learnings := List.replicate 20 "x" }

def memC5 : Memory BVal := ⟨[⟨"brand:default", .prof profC5, "brand-manager", ["brand"]⟩]⟩

def inC5 : BInput :=
  ⟨none, none, none, none, none, none, none, none, none, some ["y"], none, "", none, none, ""⟩

def msgC5 : Message BInput BOutput :=
  ⟨"system", "brand-manager", "task", .task ⟨"set-brand", inC5⟩, "m1", none⟩

/-- C5 (counterexample): merging one more learning into a profile that already
holds 20 leaves 21 learnings in the saved profile — `set-brand` does not keep
at most the last 20. -/
theorem c5_counterexample :
    (savedOf (BrandManagerAgent.setBrand memC5 msgC5 ⟨"set-brand", inC5⟩ "m2").1).map
      (fun p => p.learnings.length) = some 21 ∧ ¬ (21 ≤ 20) := by
  decide

def c5wP : BrandProfile :=
  (savedOf (BrandManagerAgent.setBrand memC5 msgC5 ⟨"set-brand", inC5⟩ "m2").1).getD
    DEFAULT_PROFILE

/-- Witness for `c5_set_brand_merge` at a concrete input. -/
theorem c5_witness : c5wP.examples.length ≤ 10 :=
  (c5_set_brand_merge memC5 msgC5 ⟨"set-brand", inC5⟩ "m2" c5wP rfl).2.2.2.2.2.1

/-! Section: Lemmas for claim C9 -/

theorem find?_map_overwrite {V : Type} (k : String) (v : V) (ag : String)
    (tags : List String) :
    ∀ (l : List (MemEntry V)), l.any (fun e => e.key = k) = true →
      (l.map (fun e => if e.key = k then (⟨k, v, ag, tags⟩ : MemEntry V) else e)).find?
        (fun e => e.key = k) = some ⟨k, v, ag, tags⟩ := by
  intro l
  induction l with
  | nil => intro h; simp at h
  | cons e es ih =>
    intro h
    by_cases hk : e.key = k
    · simp [hk]
    · rw [List.map_cons, if_neg hk, List.find?_cons_of_neg _ (by simpa using hk)]
      exact ih (by simpa [hk] using h)

theorem find?_append_of_none {α : Type} (p : α → Bool) :
    ∀ (l1 l2 : List α), l1.find? p = none → (l1 ++ l2).find? p = l2.find? p := by
  intro l1
  induction l1 with
  | nil => intro l2 h; simp
  | cons x xs ih =>
    intro l2 h
    by_cases hx : p x
    · simp [List.find?_cons, hx] at h
    · simp only [List.find?_cons, hx] at h ⊢
      simp only [List.cons_append, List.find?_cons, hx, if_false]
      exact ih l2 h

theorem Memory.get_set_self {V : Type} (m : Memory V) (k : String) (v : V)
    (ag : String) (tags : List String) :
    (m.set k v ag tags).get k = some v := by
  have hset : (m.set k v ag tags).entries =
      (if m.entries.any (fun e => e.key = k) then
        m.entries.map (fun e => if e.key = k then ⟨k, v, ag, tags⟩ else e)
      else m.entries ++ [⟨k, v, ag, tags⟩]) := by
    unfold Memory.set
    split <;> rfl
  unfold Memory.get
  rw [hset]
  by_cases h : m.entries.any (fun e => e.key = k)
  · rw [if_pos h, find?_map_overwrite k v ag tags m.entries h]
  · rw [if_neg h]
    have hnone : m.entries.find? (fun e => e.key = k) = none := by
      rw [List.find?_eq_none]
      intro x hx hpx
      exact h (List.any_eq_true.mpr ⟨x, hx, hpx⟩)
    rw [find?_append_of_none _ _ _ hnone]
    simp [List.find?_cons]

/-! Section: Claim C9 -/

/-- C9: across `track` operations the stored `ContentMetrics` keeps a
duplicate-free `platforms` list — any store whose entries all have
duplicate-free platform lists still has that property after `track` (so any
sequence of `track`s from the empty store does), and tracking an
already-listed platform leaves `platforms` unchanged while still updating
that platform's metrics record (its `updatedAt` is re-stamped). -/
theorem c9_track_platforms_nodup (mem : Memory ContentMetrics)
    (msg : Message AInput AOutput) (t : TaskPayload AInput) (now newId : String)
    (hinv : ∀ e ∈ mem.entries, e.value.platforms.Nodup) :
    (∀ e ∈ (AnalyticsAgent.track mem msg t now newId).2.entries,
        e.value.platforms.Nodup) ∧
    (∀ cm, mem.get ("metrics:" ++ t.input.contentId) = some cm →
      t.input.platform ∈ cm.platforms →
      (((AnalyticsAgent.track mem msg t now newId).2.get
          ("metrics:" ++ t.input.contentId)).map ContentMetrics.platforms =
        some cm.platforms) ∧
      ((((AnalyticsAgent.track mem msg t now newId).2.get
          ("metrics:" ++ t.input.contentId)).bind
          (fun u => assocGet u.metrics t.input.platform)).map PlatStats.updatedAt =
        some now)) := by
  constructor
  · intro e he
    simp only [AnalyticsAgent.track] at he
    rcases Memory.mem_set_entries _ _ _ _ _ _ he with hold | rfl
    · exact hinv e hold
    · simp only []
      cases hget : mem.get ("metrics:" ++ t.input.contentId) with
      | some cm =>
        simp only [hget]
        obtain ⟨e0, he0, hv⟩ := Memory.get_some_mem mem _ cm hget
        have hcm : cm.platforms.Nodup := hv ▸ hinv e0 he0
        by_cases hin : t.input.platform ∈ cm.platforms
        · simpa [hin] using hcm
        · simp only [hin, if_false, if_neg]
          simp [List.nodup_append, hcm, hin]
      | none =>
        simp [hget]
  · intro cm hget hin
    have hupd := Memory.get_set_self mem ("metrics:" ++ t.input.contentId)
      (let existing := cm
       let st1 := patchStats ((assocGet existing.metrics t.input.platform).getD emptyStats)
          t.input.metrics now
       let platforms2 :=
         if t.input.platform ∈ existing.platforms then existing.platforms
         else existing.platforms ++ [t.input.platform]
       let st2 :=
         match st1.views with
         | some v =>
           if 0 < v then
             let eng := (st1.likes.getD 0 + st1.comments.getD 0 + st1.shares.getD 0) / v * 100
             { st1 with engagement := some eng }
           else st1
         | none => st1
       { existing with
         metrics := updAssoc existing.metrics t.input.platform st2
         platforms := platforms2 })
      ("analytics") (["metrics", t.input.platform] ++ t.input.tags.getD [])
    constructor
    · simp only [AnalyticsAgent.track, hget, hupd]
      simp [hin]
    · simp only [AnalyticsAgent.track, hget, hupd]
      cases hv : (patchStats ((assocGet cm.metrics t.input.platform).getD emptyStats)
          t.input.metrics now).views with
      | some v =>
        by_cases h0 : 0 < v <;> simp [assocGet_updAssoc_self, hv, h0, patchStats]
      | none => simp [assocGet_updAssoc_self, hv, patchStats]

def statsC9 : PlatStats := ⟨some 3, some 1, none, none, none, none, none, "T0"⟩

def cmC9 : ContentMetrics := ⟨"p1", "T", "tech", "2026", ["tw"], [("tw", statsC9)], []⟩

def memC9 : Memory ContentMetrics := ⟨[⟨"metrics:p1", cmC9, "analytics", ["metrics", "tw"]⟩]⟩

def inC9 : AInput :=
  ⟨"p1", "tw", ⟨some 10, none, none, none, none, none, none⟩, none, none, none, none, none, none⟩

def msgC9 : Message AInput AOutput :=
  ⟨"cli", "analytics", "task", .task ⟨"track", inC9⟩, "m1", none⟩

/-- Witness for `c9_track_platforms_nodup` at a concrete input: re-tracking
the already-listed platform leaves the platform list unchanged. -/
theorem c9_witness :
    ((AnalyticsAgent.track memC9 msgC9 ⟨"track", inC9⟩ "NOW" "m2").2.get
        ("metrics:" ++ inC9.contentId)).map ContentMetrics.platforms =
      some cmC9.platforms :=
  ((c9_track_platforms_nodup memC9 msgC9 ⟨"track", inC9⟩ "NOW" "m2"
      (by decide)).2 cmC9 (by decide) (by decide)).1

/-! Section: Claim C10 -/

/-- Projection picking the content list out of a `top-content` reply. -/
def topContentOf (m : Message AInput AOutput) : Option (List TopItem) :=
  match m.payload with
  | .result ⟨_, .top c⟩ => some c
  | _ => none

/-- C10 (amended): the `top-content` list has at most `limit` entries — where
the effective limit is 5 when `limit` is not supplied *or is supplied as 0*
(JS `||` treats 0 as falsy) — and is ordered by non-increasing score, each
entry's score being the chosen metric (`"views"` when not supplied or empty)
summed over all of that entry's per-platform metric records. -/
theorem c10_top_content (mem : Memory ContentMetrics) (msg : Message AInput AOutput)
    (t : TaskPayload AInput) (newId : String) (l : List TopItem)
    (hl : topContentOf (AnalyticsAgent.topContent mem msg t newId).1 = some l) :
    l.length ≤ jsOrNat t.input.limit 5 ∧
    l.Pairwise (fun a b => b.score ≤ a.score) ∧
    (∀ c ∈ l, c.metric = jsOrStr t.input.metric "views" ∧
      ∃ e ∈ mem.search ("metrics:"),
        c.score = metricSum (jsOrStr t.input.metric "views") e.value ∧
        c.title = e.value.title ∧ c.topic = e.value.topic ∧
        c.platforms = e.value.platforms) := by
  simp only [AnalyticsAgent.topContent, topContentOf, createMessage] at hl
  injection hl with hl2
  subst hl2
  refine ⟨?_, ?_, ?_⟩
  · rw [List.length_map]
    exact List.length_take_le _ _
  · rw [List.pairwise_map]
    exact List.Pairwise.sublist (List.take_sublist _ _) (pairwise_sortDescBy _ _)
  · intro c hc
    rw [List.mem_map] at hc
    obtain ⟨pair, hpair, rfl⟩ := hc
    have h1 := List.take_subset _ _ hpair
    have h2 := (mem_sortDescBy _ _ _).mp h1
    rw [List.mem_map] at h2
    obtain ⟨e, he, rfl⟩ := h2
    exact ⟨rfl, e, he, rfl, rfl, rfl, rfl⟩

def inC10 : AInput :=
  ⟨"", "", ⟨none, none, none, none, none, none, none⟩, none, none, none, none, some 0, none⟩

def msgC10 : Message AInput AOutput :=
  ⟨"cli", "analytics", "task", .task ⟨"top-content", inC10⟩, "m1", none⟩

/-- C10 (counterexample): with one tracked content item and a supplied
`limit: 0`, the returned list has 1 entry, more than the supplied limit —
`limit || 5` treats 0 as not supplied. -/
theorem c10_counterexample :
    (topContentOf (AnalyticsAgent.topContent memC9 msgC10 ⟨"top-content", inC10⟩ "m2").1).map
      List.length = some 1 ∧ ¬ ((1 : Nat) ≤ 0) := by
  decide

def c10wL : List TopItem :=
  (topContentOf (AnalyticsAgent.topContent memC9 msgC10 ⟨"top-content", inC10⟩ "m2").1).getD []

/-- Witness for `c10_top_content` at a concrete input. -/
theorem c10_witness : c10wL.length ≤ jsOrNat inC10.limit 5 :=
  (c10_top_content memC9 msgC10 ⟨"top-content", inC10⟩ "m2" c10wL rfl).1

/-! Section: Claim C6 -/

/-- C6: `getBrandGuidelines(id)` returns the empty string for an unknown
tenant; for a known tenant it returns the document assembled from the
tenant's brand fields plus at most the 10 most recent entries (the last 10
in the store's stable order) attributed to the brand-manager agent. -/
theorem c6_brand_guidelines (tm : TenantManager) (id : String) :
    (TenantManager.get tm id = none → TenantManager.getBrandGuidelines tm id = "") ∧
    (∀ t, TenantManager.get tm id = some t →
      ∃ ls : List (MemEntry TVal),
        ls.length ≤ 10 ∧
        ls.IsSuffix ((TenantManager.getMemory tm id).elim []
          (fun m => m.byAgent ("brand-manager"))) ∧
        TenantManager.getBrandGuidelines tm id =
          tenantGuidelinesHeader t ++ tenantGuidelinesKw t ++
            (if ls.isEmpty then ""
             else "\n**Learned preferences:**\n" ++ String.join (ls.map learnLine))) := by
  constructor
  · intro hnone
    unfold TenantManager.getBrandGuidelines
    rw [show assocGet tm.tenants id = none from hnone]
  · intro t ht
    have ht2 : assocGet tm.tenants id = some t := ht
    unfold TenantManager.getBrandGuidelines
    rw [ht2]
    cases hm : assocGet tm.memories id with
    | none =>
      refine ⟨[], by simp, ?_, ?_⟩
      · simp only [TenantManager.getMemory, hm, Option.elim]
        exact List.nil_suffix
      · simp [tenantGuidelinesMemPart, hm]
    | some m =>
      by_cases hL : (m.byAgent ("brand-manager")).isEmpty
      · refine ⟨[], by simp, ?_, ?_⟩
        · simp only [TenantManager.getMemory, hm, Option.elim]
          exact List.nil_suffix
        · simp [tenantGuidelinesMemPart, hm, hL]
      · refine ⟨lastN 10 (m.byAgent ("brand-manager")), lastN_length_le _ _, ?_, ?_⟩
        · simp only [TenantManager.getMemory, hm, Option.elim]
          exact lastN_suffix _ _
        · have hLnil : m.byAgent ("brand-manager") ≠ [] := by
            intro h0
            exact hL (by simp [h0])
          have hne : lastN 10 (m.byAgent ("brand-manager")) ≠ [] := by
            rw [Ne, lastN_eq_nil_iff 10 (by norm_num)]
            exact hLnil
          simp [tenantGuidelinesMemPart, hm, List.isEmpty_iff, hLnil, hne]

/-! Section: Lemmas for claim C7 -/

/-- All credential pairs of all platforms, in the iteration order of
`initTenantResources`'s nested loops. -/
def flatCreds (platforms : List (String × List (String × String))) :
    List (String × String) :=
  (platforms.map Prod.snd).join

theorem assocGet_append {α : Type} (k : String) :
    ∀ (l1 l2 : List (String × α)), assocGet (l1 ++ l2) k =
      match assocGet l1 k with
      | some v => some v
      | none => assocGet l2 k := by
  intro l1
  induction l1 with
  | nil => intro l2; simp [assocGet]
  | cons kv rest ih =>
    intro l2
    obtain ⟨k2, v⟩ := kv
    by_cases h : k2 = k
    · simp [assocGet, h]
    · simp [assocGet, h, ih]

theorem assocGet_some_mem {α : Type} (k : String) (v : α) :
    ∀ (l : List (String × α)), assocGet l k = some v → (k, v) ∈ l := by
  intro l
  induction l with
  | nil => intro h; simp [assocGet] at h
  | cons kv rest ih =>
    intro h
    obtain ⟨k2, w⟩ := kv
    by_cases hk : k2 = k
    · rw [assocGet, if_pos hk] at h
      subst hk
      rw [← Option.some.inj h]
      exact List.mem_cons_self _ _
    · rw [assocGet, if_neg hk] at h
      exact List.mem_cons_of_mem _ (ih h)

theorem assocGet_eq_none_iff {α : Type} (k : String) :
    ∀ (l : List (String × α)), assocGet l k = none ↔ k ∉ l.map Prod.fst := by
  intro l
  induction l with
  | nil => simp [assocGet]
  | cons kv rest ih =>
    obtain ⟨k2, w⟩ := kv
    by_cases hk : k2 = k
    · simp [assocGet, hk]
    · simp [assocGet, hk, ih, Ne.symm hk]

theorem assocGet_mem_nodup {α : Type} (k : String) (v : α) :
    ∀ (l : List (String × α)), (l.map Prod.fst).Nodup → (k, v) ∈ l →
      assocGet l k = some v := by
  intro l
  induction l with
  | nil => intro _ h; simp at h
  | cons kv rest ih =>
    intro hnd hm
    obtain ⟨k2, w⟩ := kv
    rw [List.map_cons, List.nodup_cons] at hnd
    rcases List.mem_cons.mp hm with heq | htl
    · obtain ⟨rfl, rfl⟩ := Prod.mk.inj (Eq.symm heq)
      rw [assocGet, if_pos rfl]
    · by_cases hk : k2 = k
      · exfalso
        subst hk
        exact hnd.1 (List.mem_map.mpr ⟨(k2, v), htl, rfl⟩)
      · rw [assocGet, if_neg hk]
        exact ih hnd.2 htl

theorem assocGet_reverse_nodup {α : Type} (k : String) (l : List (String × α))
    (hnd : (l.map Prod.fst).Nodup) : assocGet l.reverse k = assocGet l k := by
  cases h : assocGet l k with
  | none =>
    rw [assocGet_eq_none_iff] at h ⊢
    simpa using h
  | some v =>
    have hm := assocGet_some_mem k v l h
    refine assocGet_mem_nodup k v l.reverse ?_ (List.mem_reverse.mpr hm)
    rw [List.map_reverse]
    exact List.nodup_reverse.mpr hnd

theorem setCred_foldl_lookup (k : String) :
    ∀ (l : List (String × String)) (ex : Executor),
      ((l.foldl (fun e kv => e.setCredential kv.1 kv.2) ex).getCredential k) =
        (match assocGet l.reverse k with
         | some v => some v
         | none => ex.getCredential k) := by
  intro l
  induction l with
  | nil => intro ex; simp [assocGet]
  | cons kv rest ih =>
    intro ex
    obtain ⟨k1, v1⟩ := kv
    rw [List.foldl_cons, ih]
    rw [List.reverse_cons, assocGet_append]
    cases hr : assocGet rest.reverse k with
    | some v => rfl
    | none =>
      simp only []
      unfold Executor.setCredential Executor.getCredential
      by_cases hk : k1 = k
      · subst hk
        simp [assocGet, assocGet_updAssoc_self]
      · simp [assocGet, hk, assocGet_updAssoc_ne _ _ _ _ (Ne.symm hk)]

theorem buildExecutor_fold_flat (platforms : List (String × List (String × String))) :
    ∀ (ex : Executor),
      platforms.foldl (fun e pc => pc.2.foldl (fun e2 kv => e2.setCredential kv.1 kv.2) e) ex =
        (flatCreds platforms).foldl (fun e kv => e.setCredential kv.1 kv.2) ex := by
  induction platforms with
  | nil => intro ex; simp [flatCreds]
  | cons p ps ih =>
    intro ex
    rw [List.foldl_cons, ih]
    simp [flatCreds, List.foldl_append]

theorem buildExecutor_lookup (platforms : List (String × List (String × String)))
    (k : String) :
    (buildExecutor platforms).getCredential k =
      (match assocGet (flatCreds platforms).reverse k with
       | some v => some v
       | none => none) := by
  unfold buildExecutor
  rw [buildExecutor_fold_flat, setCred_foldl_lookup]
  cases assocGet (flatCreds platforms).reverse k <;> rfl

theorem assocGet_foldl_updAssoc_not_mem {α : Type} (p : String) :
    ∀ (rest : List (String × α)) (acc : List (String × α)),
      p ∉ rest.map Prod.fst →
      assocGet (rest.foldl (fun a kv => updAssoc a kv.1 kv.2) acc) p = assocGet acc p := by
  intro rest
  induction rest with
  | nil => intro acc _; rfl
  | cons kv tl ih =>
    intro acc hnm
    rw [List.map_cons] at hnm
    rw [List.foldl_cons, ih _ (fun hh => hnm (List.mem_cons_of_mem _ hh))]
    exact assocGet_updAssoc_ne _ _ _ _ (fun hh => hnm (hh ▸ List.mem_cons_self _ _))

theorem assocGet_jsSpread_of_mem_upd {α : Type} (p : String) (c : α) :
    ∀ (ps : List (String × α)) (old : List (String × α)),
      (ps.map Prod.fst).Nodup → (p, c) ∈ ps →
      assocGet (jsSpread old ps) p = some c := by
  intro ps
  induction ps with
  | nil => intro old _ h; simp at h
  | cons kv rest ih =>
    intro old hnd hm
    obtain ⟨p1, c1⟩ := kv
    rw [List.map_cons, List.nodup_cons] at hnd
    rcases List.mem_cons.mp hm with heq | htl
    · injection heq with h1 h2
      subst h1
      subst h2
      unfold jsSpread
      rw [List.foldl_cons]
      have hnp : p ∉ rest.map Prod.fst := by
        intro hh
        exact hnd.1 hh
      rw [show rest.foldl (fun acc kv => updAssoc acc kv.1 kv.2) (updAssoc old p c) =
            jsSpread (updAssoc old p c) rest from rfl]
      rw [show jsSpread (updAssoc old p c) rest =
            rest.foldl (fun a kv => updAssoc a kv.1 kv.2) (updAssoc old p c) from rfl]
      rw [assocGet_foldl_updAssoc_not_mem p rest _ hnp]
      exact assocGet_updAssoc_self _ _ _
    · unfold jsSpread
      rw [List.foldl_cons]
      exact ih (updAssoc old p1 c1) hnd.2 htl

theorem update_executors (tm : TenantManager) (id : String)
    (updates : PartialTenantUpdate) (now : String) (tenant : TenantConfig)
    (ps : List (String × List (String × String)))
    (h : assocGet tm.tenants id = some tenant) (hu : updates.platforms = some ps) :
    (TenantManager.update tm id updates now).2.executors =
      updAssoc tm.executors tenant.id
        (buildExecutor (jsSpread tenant.platforms ps)) := by
  unfold TenantManager.update
  rw [h]
  simp only [hu]
  cases hn : updates.name <;> cases hb : updates.brand <;>
    cases hs : updates.settings <;>
    simp [TenantManager.initTenantResources] <;>
    split <;> rfl

/-- C7 (amended): `update(id, u)` with `u.platforms` present merges the
supplied platform credential maps over the existing ones (replacing each
supplied platform's map wholesale) and rebuilds the executor from scratch
from the merged maps; provided no credential key occurs in more than one
platform's map, `getExecutor(id)` then exposes the new value of every
credential supplied by the update and no longer exposes keys absent from the
merged maps. (Without that proviso a stale same-named credential of a later
platform can shadow the new value — see the counterexample.) -/
theorem c7_update_credentials (tm : TenantManager) (id : String)
    (updates : PartialTenantUpdate) (now : String) (tenant : TenantConfig)
    (ps : List (String × List (String × String)))
    (h : TenantManager.get tm id = some tenant) (hid : tenant.id = id)
    (hu : updates.platforms = some ps)
    (hps : (ps.map Prod.fst).Nodup)
    (hdisj : ((flatCreds (jsSpread tenant.platforms ps)).map Prod.fst).Nodup) :
    ((TenantManager.update tm id updates now).2.getExecutor id =
      some (buildExecutor (jsSpread tenant.platforms ps))) ∧
    (∀ p creds k2 v, (p, creds) ∈ ps → (k2, v) ∈ creds →
      ((TenantManager.update tm id updates now).2.getExecutor id).map
        (fun e => e.getCredential k2) = some (some v)) ∧
    (∀ k2, k2 ∉ (flatCreds (jsSpread tenant.platforms ps)).map Prod.fst →
      ((TenantManager.update tm id updates now).2.getExecutor id).map
        (fun e => e.getCredential k2) = some none) := by
  have hex : (TenantManager.update tm id updates now).2.getExecutor id =
      some (buildExecutor (jsSpread tenant.platforms ps)) := by
    unfold TenantManager.getExecutor
    rw [update_executors tm id updates now tenant ps h hu, hid]
    exact assocGet_updAssoc_self _ _ _
  refine ⟨hex, ?_, ?_⟩
  · intro p creds k2 v hpm hkm
    rw [hex]
    have h1 : assocGet (jsSpread tenant.platforms ps) p = some creds :=
      assocGet_jsSpread_of_mem_upd p creds ps tenant.platforms hps hpm
    have h2 : (p, creds) ∈ jsSpread tenant.platforms ps := assocGet_some_mem _ _ _ h1
    have h3 : (k2, v) ∈ flatCreds (jsSpread tenant.platforms ps) := by
      unfold flatCreds
      exact List.mem_join.mpr ⟨creds, List.mem_map.mpr ⟨(p, creds), h2, rfl⟩, hkm⟩
    have h4 : assocGet (flatCreds (jsSpread tenant.platforms ps)) k2 = some v :=
      assocGet_mem_nodup k2 v _ hdisj h3
    simp only [Option.map]
    rw [buildExecutor_lookup]
    rw [assocGet_reverse_nodup k2 _ hdisj, h4]
  · intro k2 hnm
    rw [hex]
    have h4 : assocGet (flatCreds (jsSpread tenant.platforms ps)) k2 = none :=
      (assocGet_eq_none_iff k2 _).mpr hnm
    simp only [Option.map]
    rw [buildExecutor_lookup]
    rw [assocGet_reverse_nodup k2 _ hdisj, h4]

/-- A tenant whose two platforms share the credential key `"k"`. -/
def tenC7 : TenantConfig :=
  { id := "t1", name := "N", slug := "n"
    brand := ⟨"v", "t", "a", "i", [], []⟩
    platforms := [("twitter", [("k", "a")]), ("wordpress", [("k", "old2")])]
    settings := ⟨"blog+social", none, false, ["local-file"]⟩
    createdAt := "c", updatedAt := "u" }

def tmC7 : TenantManager :=
  ⟨"/d", [("t1", tenC7)], [("t1", Memory.empty)], [("t1", buildExecutor tenC7.platforms)]⟩

def updC7 : PartialTenantUpdate := ⟨none, none, some [("twitter", [("k", "new")])], none⟩

/-- C7 (counterexample): the update supplies the new credential `k = "new"`
for `twitter`, yet after re-provisioning the executor exposes `k = "old2"` —
the stale value from `wordpress`, iterated later, shadows the updated one, so
the executor does not hold the new credentials. -/
theorem c7_counterexample :
    ((TenantManager.update tmC7 "t1" updC7 "now").2.getExecutor "t1").map
      (fun e => e.getCredential "k") = some (some "old2") ∧
    (some (some "old2") : Option (Option String)) ≠ some (some "new") := by
  decide

/-- A tenant with platform-wise distinct credential keys. -/
def tenC7b : TenantConfig :=
  { id := "t1", name := "N", slug := "n"
    brand := ⟨"v", "t", "a", "i", [], []⟩
    platforms := [("twitter", [("tk", "a")]), ("wordpress", [("wk", "w")])]
    settings := ⟨"blog+social", none, false, ["local-file"]⟩
    createdAt := "c", updatedAt := "u" }

def tmC7b : TenantManager :=
  ⟨"/d", [("t1", tenC7b)], [("t1", Memory.empty)], [("t1", buildExecutor tenC7b.platforms)]⟩

def updC7b : PartialTenantUpdate := ⟨none, none, some [("twitter", [("tk2", "b")])], none⟩

/-- Witness for `c7_update_credentials` at a concrete input: the updated
twitter credential is exposed and the replaced key `tk` is gone. -/
theorem c7_witness :
    ((TenantManager.update tmC7b "t1" updC7b "now").2.getExecutor "t1").map
      (fun e => e.getCredential "tk2") = some (some "b") ∧
    ((TenantManager.update tmC7b "t1" updC7b "now").2.getExecutor "t1").map
      (fun e => e.getCredential "tk") = some none := by
  refine ⟨?_, ?_⟩
  · exact (c7_update_credentials tmC7b "t1" updC7b "now" tenC7b
      [("twitter", [("tk2", "b")])] (by decide) (by decide) (by decide) (by decide)
      (by decide)).2.1 "twitter" [("tk2", "b")] "tk2" "b" (by decide) (by decide)
  · exact (c7_update_credentials tmC7b "t1" updC7b "now" tenC7b
      [("twitter", [("tk2", "b")])] (by decide) (by decide) (by decide) (by decide)
      (by decide)).2.2 "tk" (by decide)

/-! Section: Claim C8 -/

/-- Projection picking `{learned, appliesTo}` out of a `learn-from-feedback`
reply. -/
def learnedOf (m : Message BInput BOutput) : Option (String × String) :=
  match m.payload with
  | .result ⟨_, .learned l a⟩ => some (l, a)
  | _ => none

/-- Projection picking `analysis` out of an `analyze-sample` reply. -/
def analysisOf (m : Message BInput BOutput) : Option AnalysisOut :=
  match m.payload with
  | .result ⟨_, .analysis a⟩ => some a
  | _ => none

/-- Projection picking the `success` flag out of a result reply. -/
def successOf (m : Message BInput BOutput) : Option Bool :=
  match m.payload with
  | .result r => some r.success
  | _ => none

/-- C8 (amended): `learn-from-feedback` and `analyze-sample` always return a
`result` envelope with `success = true`, never an error envelope. When the
LLM response holds no parseable JSON, `learn-from-feedback` degrades to the
raw feedback text as the learning; `analyze-sample` degrades to the raw-text
wrapper only when a brace-delimited candidate fails to parse — when the
response holds no braces at all it instead returns the fixed
`{error: "Could not parse"}` object. -/
theorem c8_degraded_results (chat : List LLMMessage → String)
    (parseL : String → Option LearningJson) (parseA : String → Option AnalysisJson)
    (mem : Memory BVal) (msg : Message BInput BOutput) (t : TaskPayload BInput)
    (nowMs : Int) (newId : String) :
    ((BrandManagerAgent.learnFromFeedback chat parseL mem msg t nowMs newId).1.kind =
      "result") ∧
    (successOf (BrandManagerAgent.learnFromFeedback chat parseL mem msg t nowMs newId).1 =
      some true) ∧
    ((BrandManagerAgent.analyzeSample chat parseA mem msg t newId).1.kind = "result") ∧
    (successOf (BrandManagerAgent.analyzeSample chat parseA mem msg t newId).1 =
      some true) ∧
    (extractBraces (chat (feedbackMessages t.input)) = none →
      learnedOf (BrandManagerAgent.learnFromFeedback chat parseL mem msg t nowMs newId).1 =
        some (t.input.feedback, "all")) ∧
    (∀ m2, extractBraces (chat (feedbackMessages t.input)) = some m2 → parseL m2 = none →
      learnedOf (BrandManagerAgent.learnFromFeedback chat parseL mem msg t nowMs newId).1 =
        some (t.input.feedback, "all")) ∧
    (extractBraces (chat (analyzeMessages t.input)) = none →
      analysisOf (BrandManagerAgent.analyzeSample chat parseA mem msg t newId).1 =
        some AnalysisOut.couldNotParse) ∧
    (∀ m2, extractBraces (chat (analyzeMessages t.input)) = some m2 → parseA m2 = none →
      analysisOf (BrandManagerAgent.analyzeSample chat parseA mem msg t newId).1 =
        some (AnalysisOut.raw (chat (analyzeMessages t.input)))) := by
  refine ⟨rfl, rfl, rfl, rfl, ?_, ?_, ?_, ?_⟩
  · intro hx
    simp [BrandManagerAgent.learnFromFeedback, learnedOf, createMessage, hx]
  · intro m2 hx hp
    simp [BrandManagerAgent.learnFromFeedback, learnedOf, createMessage, hx, hp]
  · intro hx
    simp [BrandManagerAgent.analyzeSample, analysisOf, createMessage, hx]
  · intro m2 hx hp
    simp [BrandManagerAgent.analyzeSample, analysisOf, createMessage, hx, hp]

def inC8 : BInput :=
  ⟨none, none, none, none, none, none, none, none, none, none, none, "fb", none, none, "sm"⟩

def msgC8 : Message BInput BOutput :=
  ⟨"cli", "brand-manager", "task", .task ⟨"analyze-sample", inC8⟩, "m1", none⟩

/-- C8 (counterexample): an LLM response with no braces at all makes
`analyze-sample` return the fixed `{error: "Could not parse"}` object — still
a successful result envelope, but not the raw input or raw response text the
claim promises. -/
theorem c8_counterexample :
    analysisOf (BrandManagerAgent.analyzeSample (fun _ => "no json here")
      (fun _ => none) ⟨[]⟩ msgC8 ⟨"analyze-sample", inC8⟩ "m2").1 =
      some AnalysisOut.couldNotParse ∧
    successOf (BrandManagerAgent.analyzeSample (fun _ => "no json here")
      (fun _ => none) ⟨[]⟩ msgC8 ⟨"analyze-sample", inC8⟩ "m2").1 = some true ∧
    AnalysisOut.couldNotParse ≠ AnalysisOut.raw "no json here" ∧
    AnalysisOut.couldNotParse ≠ AnalysisOut.raw "sm" := by
  refine ⟨by decide, by decide, by decide, by decide⟩

/-! Section: Claim C1 -/

/-- C1 (amended): for a task whose action is none of its recognized actions,
the analytics agent answers with an `error` envelope carrying
`code = "UNKNOWN_ACTION"`, `retryable = false` and the task's id as
`correlationId` — but the brand-manager instead treats any unrecognized
action as `get-brand-context` and answers with a successful `result`
envelope (still correlated to the task's id), not an error. -/
theorem c1_unknown_action
    (memA : Memory ContentMetrics) (ext : JsExt) (now : String) (nowMs : Int)
    (newId : String) (msgA : Message AInput AOutput) (tA : TaskPayload AInput)
    (hA : msgA.payload = .task tA)
    (hAct : tA.action ∉ (["track", "report", "insights", "top-content"] : List String))
    (chat : List LLMMessage → String) (parseL : String → Option LearningJson)
    (parseA : String → Option AnalysisJson) (memB : Memory BVal)
    (msgB : Message BInput BOutput) (tB : TaskPayload BInput)
    (hB : msgB.payload = .task tB)
    (hBct : tB.action ∉
      (["set-brand", "learn-from-feedback", "analyze-sample"] : List String)) :
    ((AnalyticsAgent.handle memA ext now nowMs newId msgA).1.payload =
      .error ⟨"UNKNOWN_ACTION", "Unknown: " ++ tA.action, false⟩ ∧
     (AnalyticsAgent.handle memA ext now nowMs newId msgA).1.kind = "error" ∧
     (AnalyticsAgent.handle memA ext now nowMs newId msgA).1.correlationId =
       some msgA.id) ∧
    (BrandManagerAgent.handle chat parseL parseA memB nowMs newId msgB =
      some (BrandManagerAgent.getBrandContext memB msgB tB newId) ∧
     (BrandManagerAgent.getBrandContext memB msgB tB newId).1.kind = "result" ∧
     successOf (BrandManagerAgent.getBrandContext memB msgB tB newId).1 = some true ∧
     (BrandManagerAgent.getBrandContext memB msgB tB newId).1.correlationId =
       some msgB.id) := by
  simp only [List.mem_cons, List.not_mem_nil, or_false, not_or] at hAct hBct
  obtain ⟨h1, h2, h3, h4⟩ := hAct
  obtain ⟨g1, g2, g3⟩ := hBct
  constructor
  · rw [AnalyticsAgent.handle, hA]
    simp only [h1, h2, h3, h4, if_false]
    refine ⟨?_, ?_, ?_⟩ <;> first | rfl | trivial
  · rw [BrandManagerAgent.handle, hB]
    simp only [g1, g2, g3, if_false]
    refine ⟨?_, ?_, ?_, ?_⟩ <;> first | rfl | trivial

def inC1 : BInput :=
  ⟨none, none, none, none, none, none, none, none, none, none, none, "", none, none, ""⟩

def msgC1 : Message BInput BOutput :=
  ⟨"system", "brand-manager", "task", .task ⟨"unknown-action", inC1⟩, "m1", none⟩

/-- C1 (counterexample): a task with `action: "unknown-action"` sent to the
brand-manager yields a `result` envelope (the `get-brand-context`
fallthrough), not the `UNKNOWN_ACTION` error envelope the claim promises for
every agent. -/
theorem c1_counterexample :
    (BrandManagerAgent.handle (fun _ => "") (fun _ => none) (fun _ => none)
        ⟨[]⟩ 0 "m2" msgC1).map (fun o => o.1.kind) = some "result" ∧
    (some "result" : Option String) ≠ some "error" := by
  exact ⟨rfl, by decide⟩

def msgAC1 : Message AInput AOutput :=
  ⟨"system", "analytics", "task",
    .task ⟨"unknown-action",
      ⟨"", "", ⟨none, none, none, none, none, none, none⟩, none, none, none, none,
        none, none⟩⟩, "a1", none⟩

def extC1 : JsExt := ⟨fun _ => "", fun _ => "", fun _ => ""⟩

/-- Witness for `c1_unknown_action` at a concrete input. -/
theorem c1_witness :
    (AnalyticsAgent.handle ⟨[]⟩ extC1 "now" 0 "m2" msgAC1).1.kind = "error" ∧
    (AnalyticsAgent.handle ⟨[]⟩ extC1 "now" 0 "m2" msgAC1).1.correlationId = some "a1" ∧
    (BrandManagerAgent.getBrandContext ⟨[]⟩ msgC1 ⟨"unknown-action", inC1⟩ "m2").1.kind =
      "result" := by
  have h := c1_unknown_action ⟨[]⟩ extC1 "now" 0 "m2" msgAC1
    ⟨"unknown-action",
      ⟨"", "", ⟨none, none, none, none, none, none, none⟩, none, none, none, none,
        none, none⟩⟩ rfl (by decide)
    (fun _ => "") (fun _ => none) (fun _ => none) ⟨[]⟩ msgC1
    ⟨"unknown-action", inC1⟩ rfl (by decide)
  exact ⟨h.1.2.1, h.1.2.2, h.2.2.1⟩

/-! Section: Claim C2 -/

/-- C2: every envelope either agent's `handle` returns — result or error, on
any payload — carries the input message's `id` as its `correlationId` (for
the brand-manager, whenever `handle` returns at all, i.e. on task payloads). -/
theorem c2_correlation :
    (∀ (mem : Memory ContentMetrics) (ext : JsExt) (now : String) (nowMs : Int)
        (newId : String) (msg : Message AInput AOutput),
      (AnalyticsAgent.handle mem ext now nowMs newId msg).1.correlationId =
        some msg.id) ∧
    (∀ (chat : List LLMMessage → String) (parseL : String → Option LearningJson)
        (parseA : String → Option AnalysisJson) (mem : Memory BVal) (nowMs : Int)
        (newId : String) (msg : Message BInput BOutput)
        (out : Message BInput BOutput) (mem2 : Memory BVal),
      BrandManagerAgent.handle chat parseL parseA mem nowMs newId msg =
        some (out, mem2) → out.correlationId = some msg.id) := by
  constructor
  · intro mem ext now nowMs newId msg
    rw [AnalyticsAgent.handle]
    split
    · repeat' split
      all_goals first
        | rfl
        | (rw [AnalyticsAgent.getInsights]; split <;> rfl)
    · rfl
  · intro chat parseL parseA mem nowMs newId msg out mem2 h
    have hfst : ∀ (pr : Message BInput BOutput × Memory BVal),
        some pr = some (out, mem2) → pr.1 = out := by
      intro pr hpr
      injection hpr with hpr2
      rw [hpr2]
    rw [BrandManagerAgent.handle] at h
    split at h
    · split at h
      · rw [← hfst _ h]
        rfl
      · split at h
        · rw [← hfst _ h]
          rfl
        · split at h
          · rw [← hfst _ h]
            rfl
          · rw [← hfst _ h]
            rfl
    · cases h
